/-
  Verification of the core simulation engine of the Pacman repository.

  Shallow embedding of the TypeScript source in Lean 4:
  pure functions become Lean functions, stateful classes become explicit
  state-passing over structures, JS numbers become exact rationals or
  naturals, fallible code returns Except or Option.  Loops whose
  termination is itself under scrutiny are embedded with an explicit fuel
  parameter; running out of fuel yields none, and separate theorems show
  which fuel suffices.
-/
import Mathlib

namespace Pacman

/-! ## Enumerations (src enums: GameErrorType, GameEventType, GameStatus) -/

/-- Error categories, from the GameErrorType enum of the source. -/
inductive GameErrorType where
  | LevelLoadError
  | AudioLoadError
  | ImageLoadError
  | InvalidStateError
  | CollisionError
  | PathfindingError
  | InitializationError
  | RenderError
  | NetworkError
  | DataStorageError
deriving DecidableEq, Repr

/-- Typed error raised by the engine.  The source GameError also carries a
human-readable message string and an optional wrapped error; only the
error type is relevant to the properties proved here. -/
structure GameError where
  errorType : GameErrorType
deriving DecidableEq, Repr

/-- Game status enumeration, from the GameStatus enum of the source. -/
inductive GameStatus where
  | Loading
  | Playing
  | Paused
  | GameOver
  | Victory
  | NameInput
  | HighScores
deriving DecidableEq, Repr

/-! ## ScoreSystem (src/Pacman/src/game/Systems/ScoreSystem.ts)

The score listeners registered in setupEventListeners are embedded as a
single dispatch function on the score-relevant events.  The ScoreChanged
notification emitted by addScore carries the new score outward and does
not feed back into this state, so it is not modelled. -/

/-- Score values table of the ScoreSystem (field scoreValues). -/
structure ScoreValues where
  dot : ℚ
  powerPellet : ℚ
  pathPellet : ℚ
  ghost : List ℚ
  fruit : ℚ
  levelCompletion : ℚ
deriving DecidableEq, Repr

/-- Default score values set in the ScoreSystem constructor. -/
def defaultScoreValues : ScoreValues :=
  { dot := 1/2
    powerPellet := 1
    pathPellet := 1
    ghost := [1, 2, 4, 8]
    fruit := 5
    levelCompletion := 1 }

/-- Mutable state of the ScoreSystem class. -/
structure ScoreSystem where
  score : ℚ
  scoreValues : ScoreValues
  consecutiveGhosts : ℕ
deriving DecidableEq, Repr

/-- State of a freshly constructed ScoreSystem. -/
def ScoreSystem.init : ScoreSystem :=
  { score := 0, scoreValues := defaultScoreValues, consecutiveGhosts := 0 }

/-- ScoreSystem.addScore: adds points to the score. -/
def ScoreSystem.addScore (s : ScoreSystem) (points : ℚ) : ScoreSystem :=
  { s with score := s.score + points }

/-- ScoreSystem.resetConsecutiveGhosts. -/
def ScoreSystem.resetConsecutiveGhosts (s : ScoreSystem) : ScoreSystem :=
  { s with consecutiveGhosts := 0 }

/-- ScoreSystem.addGhostScore: index = min(consecutiveGhosts, ghost.length - 1),
points = ghost[index], then increments the consecutive counter and adds
the points.  List.getD matches the in-range JS index read. -/
def ScoreSystem.addGhostScore (s : ScoreSystem) : ScoreSystem :=
  let index := min s.consecutiveGhosts (s.scoreValues.ghost.length - 1)
  let points := s.scoreValues.ghost.getD index 0
  let s := { s with consecutiveGhosts := s.consecutiveGhosts + 1 }
  s.addScore points

/-- Events handled by the listeners the ScoreSystem registers, with the
payload fields those listeners read. -/
inductive ScoreEvent where
  | DotCollected
  | PelletCollected (isPowerPellet : Bool) (isPathPellet : Bool)
  | GhostEaten
  | FruitCollected
  | LevelCompleted
  | PowerModeEnded
deriving DecidableEq, Repr

/-- Dispatch of one event to the listener bodies registered in
ScoreSystem.setupEventListeners. -/
def ScoreSystem.handleEvent (s : ScoreSystem) (e : ScoreEvent) : ScoreSystem :=
  match e with
  | .DotCollected => s.addScore s.scoreValues.dot
  | .PelletCollected isPowerPellet isPathPellet =>
      if isPowerPellet then
        (s.addScore s.scoreValues.powerPellet).resetConsecutiveGhosts
      else if isPathPellet then
        s.addScore s.scoreValues.pathPellet
      else s
  | .GhostEaten => s.addGhostScore
  | .FruitCollected => s.addScore s.scoreValues.fruit
  | .LevelCompleted => s.addScore s.scoreValues.levelCompletion
  | .PowerModeEnded => s.resetConsecutiveGhosts

/-- Dispatch of a sequence of events, in order. -/
def ScoreSystem.handleEvents (s : ScoreSystem) (es : List ScoreEvent) : ScoreSystem :=
  es.foldl ScoreSystem.handleEvent s

/-! ## TimerManager and GameState
(src TimerManager and src/Pacman/src/game/GameState.ts)

The TimerManager keeps a map from a timer id string to the numeric handle
returned by window.setTimeout.  The embedding carries that map as an
association list plus a counter supplying fresh handles.  A wall-clock
expiry of handle h is modelled by fireTimeout: it runs the registered
callback only when the pair (id, h) is still present in the map, which is
exactly when the underlying timeout has not been cleared (setTimer and the
clearTimer variants always call clearTimeout when they delete an entry,
and the timeout wrapper deletes its own entry after running).  GameState
registers exactly two callbacks, selected by the timer id, so the
callback bodies are dispatched on the id. -/

/-- Timer id used by GameState for the scared-ghosts effect. -/
def SCARED_TIMER : String := "ghostsScared"

/-- Timer id used by GameState for the show-path effect. -/
def PATH_TIMER : String := "showPath"

/-- State of GameState together with its TimerManager and score system.
notified records the events published through the EventMediator, and
statusCallbackRuns records the invocations of the status-change
callback, newest last. -/
structure GameStateS where
  status : GameStatus
  level : ℕ
  ghostsScared : Bool
  showPath : Bool
  scoreSystem : ScoreSystem
  timers : List (String × ℕ)
  nextHandle : ℕ
  notified : List ScoreEvent
  statusCallbackRuns : List GameStatus
deriving DecidableEq, Repr

/-- State built by the GameState constructor. -/
def GameStateS.init : GameStateS :=
  { status := .Loading, level := 1, ghostsScared := false, showPath := false
    scoreSystem := ScoreSystem.init, timers := [], nextHandle := 0
    notified := [], statusCallbackRuns := [] }

/-- TimerManager.clearTimer: clearTimeout plus delete of the map entry. -/
def clearTimer (timers : List (String × ℕ)) (id : String) : List (String × ℕ) :=
  timers.filter (fun p => p.1 ≠ id)

/-- TimerManager.setTimer: clears any existing timer with this id, then
arms a fresh timeout and stores its handle under the id. -/
def GameStateS.setTimer (st : GameStateS) (id : String) : GameStateS :=
  { st with
    timers := clearTimer st.timers id ++ [(id, st.nextHandle)]
    nextHandle := st.nextHandle + 1 }

/-- TimerManager.clearAllTimers: clearTimeout on every stored handle and
clear the map. -/
def GameStateS.clearAllTimers (st : GameStateS) : GameStateS :=
  { st with timers := [] }

/-- GameState.setStatus: assigns the status and invokes the status-change
callback exactly when the status actually changed. -/
def GameStateS.setStatus (st : GameStateS) (status : GameStatus) : GameStateS :=
  let oldStatus := st.status
  let st := { st with status := status }
  if oldStatus ≠ status then
    { st with statusCallbackRuns := st.statusCallbackRuns ++ [status] }
  else st

/-- GameState.startGame. -/
def GameStateS.startGame (st : GameStateS) : GameStateS :=
  st.setStatus .Playing

/-- GameState.pauseGame: only valid from Playing. -/
def GameStateS.pauseGame (st : GameStateS) : GameStateS :=
  if st.status = .Playing then st.setStatus .Paused else st

/-- GameState.resumeGame: only valid from Paused. -/
def GameStateS.resumeGame (st : GameStateS) : GameStateS :=
  if st.status = .Paused then st.setStatus .Playing else st

/-- GameState.togglePause: returns true exactly when the game is now
paused, false from any state other than Playing. -/
def GameStateS.togglePause (st : GameStateS) : Bool × GameStateS :=
  if st.status = .Playing then (true, st.pauseGame)
  else if st.status = .Paused then (false, st.resumeGame)
  else (false, st)

/-- GameState.endGame: forcibly reaches GameOver and clears all timers. -/
def GameStateS.endGame (st : GameStateS) : GameStateS :=
  (st.setStatus .GameOver).clearAllTimers

/-- GameState.winGame. -/
def GameStateS.winGame (st : GameStateS) : GameStateS :=
  (st.setStatus .Victory).clearAllTimers

/-- GameState.nextLevel: increments the level counter and clears timers. -/
def GameStateS.nextLevel (st : GameStateS) : GameStateS :=
  { st.clearAllTimers with level := st.level + 1 }

/-- GameState.setGhostsScared: sets the flag, resets the consecutive-ghost
streak and arms the scared timer (the duration only matters to the
wall clock, which fireTimeout abstracts). -/
def GameStateS.setGhostsScared (st : GameStateS) : GameStateS :=
  let st := { st with
    ghostsScared := true
    scoreSystem := st.scoreSystem.resetConsecutiveGhosts }
  st.setTimer SCARED_TIMER

/-- GameState.setShowPath: sets the flag and arms the path timer. -/
def GameStateS.setShowPath (st : GameStateS) : GameStateS :=
  ({ st with showPath := true } : GameStateS).setTimer PATH_TIMER

/-- Body of the expiry callback GameState registers for each timer id:
the scared timer resets the flag and publishes PowerModeEnded, the path
timer resets the show-path flag.  Any other id has no registered
callback in the source. -/
def GameStateS.runTimerCallback (st : GameStateS) (id : String) : GameStateS :=
  if id = SCARED_TIMER then
    { st with ghostsScared := false, notified := st.notified ++ [.PowerModeEnded] }
  else if id = PATH_TIMER then
    { st with showPath := false }
  else st

/-- Wall-clock expiry of the timeout with handle h armed under id: the
callback wrapper runs (and removes the map entry) only if the timeout
was never cleared, i.e. the pair is still stored. -/
def GameStateS.fireTimeout (st : GameStateS) (id : String) (h : ℕ) : GameStateS :=
  if (id, h) ∈ st.timers then
    { st.runTimerCallback id with timers := clearTimer st.timers id }
  else st

/-! ## Collision detection and wall resolution
(src CollisionDetector and Wall.handleCollision)

Coordinates are exact rationals; a JS number field becomes a rational
field.  Entities that expose x, y, getRadius and reposition are embedded
as a record of the three numbers, with reposition returning the updated
record. -/

/-- Axis-aligned rectangle, from the Rectangle type of the source. -/
structure Rectangle where
  x : ℚ
  y : ℚ
  width : ℚ
  height : ℚ
deriving DecidableEq, Repr

/-- CollisionInfo returned by CollisionDetector.getCollisionInfo. -/
structure CollisionInfo where
  collided : Bool
  dx : ℚ
  dy : ℚ
  crossWidth : ℚ
  crossHeight : ℚ
deriving DecidableEq, Repr

/-- CollisionDetector.getCollisionInfo on two rectangles. -/
def getCollisionInfo (rect1 rect2 : Rectangle) : CollisionInfo :=
  let dx := (rect1.x + rect1.width / 2) - (rect2.x + rect2.width / 2)
  let dy := (rect1.y + rect1.height / 2) - (rect2.y + rect2.height / 2)
  let width := (rect1.width + rect2.width) / 2
  let height := (rect1.height + rect2.height) / 2
  let crossWidth := width * dy
  let crossHeight := height * dx
  { collided := decide (|dx| ≤ width) && decide (|dy| ≤ height)
    dx := dx, dy := dy, crossWidth := crossWidth, crossHeight := crossHeight }

/-- Resolution vector computed by CollisionDetector.getResolutionVector. -/
structure Resolution where
  penetration : ℚ
  normalX : ℚ
  normalY : ℚ
deriving DecidableEq, Repr

/-- CollisionDetector.getResolutionVector: picks the axis with the
shallower penetration, tie treated as the x-axis. -/
def getResolutionVector (info : CollisionInfo) : Resolution :=
  if |info.crossWidth| ≤ |info.crossHeight| then
    { penetration := |info.crossWidth|
      normalX := if info.dx < 0 then -1 else 1
      normalY := 0 }
  else
    { penetration := |info.crossHeight|
      normalX := 0
      normalY := if info.dy < 0 then -1 else 1 }

/-- Circular entity as seen by Wall.handleCollision: position and radius. -/
structure CircularEntity where
  x : ℚ
  y : ℚ
  radius : ℚ
deriving DecidableEq, Repr

/-- Wall entity: origin corner plus extent. -/
structure Wall where
  x : ℚ
  y : ℚ
  width : ℚ
  height : ℚ
deriving DecidableEq, Repr

/-- Bounding rectangle the wall passes to the collision detector for a
circular entity. -/
def CircularEntity.toRect (e : CircularEntity) : Rectangle :=
  { x := e.x - e.radius, y := e.y - e.radius
    width := e.radius * 2, height := e.radius * 2 }

/-- Rectangle of the wall itself. -/
def Wall.toRect (w : Wall) : Rectangle :=
  { x := w.x, y := w.y, width := w.width, height := w.height }

/-- Wall.resolveCollision: repositions the entity along the axis selected
by the resolution vector, one unit past exact touching. -/
def Wall.resolveCollision (w : Wall) (e : CircularEntity) (res : Resolution) :
    CircularEntity :=
  if res.normalX ≠ 0 then
    { e with x := if res.normalX > 0 then w.x + w.width + e.radius + 1
                  else w.x - e.radius - 1 }
  else
    { e with y := if res.normalY > 0 then w.y + w.height + e.radius + 1
                  else w.y - e.radius - 1 }

/-- Wall.handleCollision: checks the rectangle pair and resolves when they
collide, otherwise leaves the entity in place. -/
def Wall.handleCollision (w : Wall) (e : CircularEntity) : CircularEntity :=
  let collisionInfo := getCollisionInfo e.toRect w.toRect
  if collisionInfo.collided then
    w.resolveCollision e (getResolutionVector collisionInfo)
  else e

/-- Overlap test on the horizontal axis, the x-conjunct of the collided
test computed by getCollisionInfo on the entity and wall rectangles. -/
def overlapOnX (w : Wall) (e : CircularEntity) : Bool :=
  decide (|(e.toRect.x + e.toRect.width / 2) - (w.toRect.x + w.toRect.width / 2)|
    ≤ (e.toRect.width + w.toRect.width) / 2)

/-- Overlap test on the vertical axis, the y-conjunct of the collided
test computed by getCollisionInfo on the entity and wall rectangles. -/
def overlapOnY (w : Wall) (e : CircularEntity) : Bool :=
  decide (|(e.toRect.y + e.toRect.height / 2) - (w.toRect.y + w.toRect.height / 2)|
    ≤ (e.toRect.height + w.toRect.height) / 2)

lemma collided_eq_overlap (w : Wall) (e : CircularEntity) :
    (getCollisionInfo e.toRect w.toRect).collided = (overlapOnX w e && overlapOnY w e) := by
  rfl

lemma overlapOnX_iff (w : Wall) (e : CircularEntity) :
    overlapOnX w e = true ↔
      |e.x - (w.x + w.width / 2)| ≤ e.radius + w.width / 2 := by
  have h1 : (e.toRect.x + e.toRect.width / 2) - (w.toRect.x + w.toRect.width / 2)
      = e.x - (w.x + w.width / 2) := by
    simp only [CircularEntity.toRect, Wall.toRect]; ring
  have h2 : (e.toRect.width + w.toRect.width) / 2 = e.radius + w.width / 2 := by
    simp only [CircularEntity.toRect, Wall.toRect]; ring
  rw [overlapOnX, h1, h2, decide_eq_true_iff]

lemma overlapOnY_iff (w : Wall) (e : CircularEntity) :
    overlapOnY w e = true ↔
      |e.y - (w.y + w.height / 2)| ≤ e.radius + w.height / 2 := by
  have h1 : (e.toRect.y + e.toRect.height / 2) - (w.toRect.y + w.toRect.height / 2)
      = e.y - (w.y + w.height / 2) := by
    simp only [CircularEntity.toRect, Wall.toRect]; ring
  have h2 : (e.toRect.height + w.toRect.height) / 2 = e.radius + w.height / 2 := by
    simp only [CircularEntity.toRect, Wall.toRect]; ring
  rw [overlapOnY, h1, h2, decide_eq_true_iff]

/-- Shape of the resolved entity in the four possible resolution cases. -/
lemma handleCollision_cases (w : Wall) (e : CircularEntity)
    (hc : (getCollisionInfo e.toRect w.toRect).collided = true) :
    w.handleCollision e = { e with x := w.x + w.width + e.radius + 1 } ∨
    w.handleCollision e = { e with x := w.x - e.radius - 1 } ∨
    w.handleCollision e = { e with y := w.y + w.height + e.radius + 1 } ∨
    w.handleCollision e = { e with y := w.y - e.radius - 1 } := by
  simp only [Wall.handleCollision, hc, if_true]
  unfold Wall.resolveCollision getResolutionVector
  by_cases hax : |(getCollisionInfo e.toRect w.toRect).crossWidth|
      ≤ |(getCollisionInfo e.toRect w.toRect).crossHeight|
  · by_cases hs : (getCollisionInfo e.toRect w.toRect).dx < 0
    · right; left; simp [hax, hs]
    · left; simp [hax, hs]
  · by_cases hs : (getCollisionInfo e.toRect w.toRect).dy < 0
    · right; right; right; simp [hax, hs]
    · right; right; left; simp [hax, hs]

lemma not_overlapOnX_xplus (w : Wall) (e : CircularEntity) :
    overlapOnX w { e with x := w.x + w.width + e.radius + 1 } = false := by
  by_contra hT
  rw [Bool.not_eq_false, overlapOnX_iff, abs_le] at hT
  have := hT.2
  simp only at this
  linarith

lemma not_overlapOnX_xminus (w : Wall) (e : CircularEntity) :
    overlapOnX w { e with x := w.x - e.radius - 1 } = false := by
  by_contra hT
  rw [Bool.not_eq_false, overlapOnX_iff, abs_le] at hT
  have := hT.1
  simp only at this
  linarith

lemma not_overlapOnY_yplus (w : Wall) (e : CircularEntity) :
    overlapOnY w { e with y := w.y + w.height + e.radius + 1 } = false := by
  by_contra hT
  rw [Bool.not_eq_false, overlapOnY_iff, abs_le] at hT
  have := hT.2
  simp only at this
  linarith

lemma not_overlapOnY_yminus (w : Wall) (e : CircularEntity) :
    overlapOnY w { e with y := w.y - e.radius - 1 } = false := by
  by_contra hT
  rw [Bool.not_eq_false, overlapOnY_iff, abs_le] at hT
  have := hT.1
  simp only at this
  linarith

lemma handleCollision_of_not_collided (w : Wall) (e : CircularEntity)
    (hc : (getCollisionInfo e.toRect w.toRect).collided = false) :
    w.handleCollision e = e := by
  simp [Wall.handleCollision, hc]


/-! ## Theorems for claims C5, C7, C8 -/

/-- C5: resolving a wall collision displaces the circular entity along
exactly one axis (the other coordinate is unchanged), the resulting
position has zero overlap with the wall on the chosen axis (and hence no
collision at all), and resolution is idempotent: running handleCollision
again on the already-separated pair produces no further displacement. -/
theorem wall_collision_resolution_spec (w : Wall) (e : CircularEntity) :
    ((w.handleCollision e).x = e.x ∨ (w.handleCollision e).y = e.y) ∧
    ((getCollisionInfo e.toRect w.toRect).collided = true →
      ((w.handleCollision e).x ≠ e.x ∧ (w.handleCollision e).y = e.y) ∨
      ((w.handleCollision e).x = e.x ∧ (w.handleCollision e).y ≠ e.y)) ∧
    ((getCollisionInfo e.toRect w.toRect).collided = true →
      ((w.handleCollision e).x ≠ e.x → overlapOnX w (w.handleCollision e) = false) ∧
      ((w.handleCollision e).y ≠ e.y → overlapOnY w (w.handleCollision e) = false) ∧
      (getCollisionInfo (w.handleCollision e).toRect w.toRect).collided = false) ∧
    w.handleCollision (w.handleCollision e) = w.handleCollision e := by
  by_cases hc : (getCollisionInfo e.toRect w.toRect).collided = true
  · have hboth : overlapOnX w e = true ∧ overlapOnY w e = true := by
      have hco := collided_eq_overlap w e
      rw [hc] at hco
      exact (Bool.and_eq_true _ _).mp hco.symm
    have hx := (overlapOnX_iff w e).mp hboth.1
    have hy := (overlapOnY_iff w e).mp hboth.2
    rcases handleCollision_cases w e hc with h1 | h1 | h1 | h1
    · -- pushed out to the right of the wall
      have hne : (w.handleCollision e).x ≠ e.x := by
        rw [h1]
        show w.x + w.width + e.radius + 1 ≠ e.x
        have := (abs_le.mp hx).2
        intro hEq; linarith
      have hsx : overlapOnX w (w.handleCollision e) = false := by
        rw [h1]; exact not_overlapOnX_xplus w e
      have hcol1 : (getCollisionInfo (w.handleCollision e).toRect w.toRect).collided = false := by
        rw [collided_eq_overlap, hsx, Bool.false_and]
      exact ⟨Or.inr (by rw [h1]), fun _ => Or.inl ⟨hne, by rw [h1]⟩,
        fun _ => ⟨fun _ => hsx, fun hy1 => absurd (by rw [h1]) hy1, hcol1⟩,
        handleCollision_of_not_collided w _ hcol1⟩
    · -- pushed out to the left of the wall
      have hne : (w.handleCollision e).x ≠ e.x := by
        rw [h1]
        show w.x - e.radius - 1 ≠ e.x
        have := (abs_le.mp hx).1
        intro hEq; linarith
      have hsx : overlapOnX w (w.handleCollision e) = false := by
        rw [h1]; exact not_overlapOnX_xminus w e
      have hcol1 : (getCollisionInfo (w.handleCollision e).toRect w.toRect).collided = false := by
        rw [collided_eq_overlap, hsx, Bool.false_and]
      exact ⟨Or.inr (by rw [h1]), fun _ => Or.inl ⟨hne, by rw [h1]⟩,
        fun _ => ⟨fun _ => hsx, fun hy1 => absurd (by rw [h1]) hy1, hcol1⟩,
        handleCollision_of_not_collided w _ hcol1⟩
    · -- pushed out below the wall
      have hne : (w.handleCollision e).y ≠ e.y := by
        rw [h1]
        show w.y + w.height + e.radius + 1 ≠ e.y
        have := (abs_le.mp hy).2
        intro hEq; linarith
      have hsy : overlapOnY w (w.handleCollision e) = false := by
        rw [h1]; exact not_overlapOnY_yplus w e
      have hcol1 : (getCollisionInfo (w.handleCollision e).toRect w.toRect).collided = false := by
        rw [collided_eq_overlap, hsy, Bool.and_false]
      exact ⟨Or.inl (by rw [h1]), fun _ => Or.inr ⟨by rw [h1], hne⟩,
        fun _ => ⟨fun hx1 => absurd (by rw [h1]) hx1, fun _ => hsy, hcol1⟩,
        handleCollision_of_not_collided w _ hcol1⟩
    · -- pushed out above the wall
      have hne : (w.handleCollision e).y ≠ e.y := by
        rw [h1]
        show w.y - e.radius - 1 ≠ e.y
        have := (abs_le.mp hy).1
        intro hEq; linarith
      have hsy : overlapOnY w (w.handleCollision e) = false := by
        rw [h1]; exact not_overlapOnY_yminus w e
      have hcol1 : (getCollisionInfo (w.handleCollision e).toRect w.toRect).collided = false := by
        rw [collided_eq_overlap, hsy, Bool.and_false]
      exact ⟨Or.inl (by rw [h1]), fun _ => Or.inr ⟨by rw [h1], hne⟩,
        fun _ => ⟨fun hx1 => absurd (by rw [h1]) hx1, fun _ => hsy, hcol1⟩,
        handleCollision_of_not_collided w _ hcol1⟩
  · have hcf : (getCollisionInfo e.toRect w.toRect).collided = false :=
      Bool.not_eq_true _ |>.mp hc
    have he := handleCollision_of_not_collided w e hcf
    refine ⟨Or.inl (by rw [he]), fun h => absurd h hc, fun h => absurd h hc, ?_⟩
    rw [he, he]

/-- C7: on a freshly constructed ScoreSystem with the default scoring
table, the event sequence DotCollected, PelletCollected (power),
GhostEaten three times, PowerModeEnded, GhostEaten yields the final
score 9.5 = 0.5 + 1 + 1 + 2 + 4 + 1, the streak being reset by
PowerModeEnded. -/
theorem score_sequence_spec :
    (ScoreSystem.handleEvents ScoreSystem.init
      [.DotCollected, .PelletCollected true false, .GhostEaten, .GhostEaten,
       .GhostEaten, .PowerModeEnded, .GhostEaten]).score = 19/2 := by
  norm_num [ScoreSystem.handleEvents, ScoreSystem.handleEvent, ScoreSystem.init,
    ScoreSystem.addScore, ScoreSystem.addGhostScore,
    ScoreSystem.resetConsecutiveGhosts, defaultScoreValues, List.getD]

/-- C8: togglePause from Playing returns true and pauses; a second toggle
returns false and resumes; from any other status it returns false and
leaves the state unchanged; endGame reaches GameOver from any state and
clears all timers, after which no armed timeout expiry has any effect
(in particular a previously armed scared-ghosts timer never fires). -/
theorem gameState_togglePause_endGame_spec :
    (∀ st : GameStateS, st.status = .Playing →
      st.togglePause.1 = true ∧ st.togglePause.2.status = .Paused ∧
      st.togglePause.2.togglePause.1 = false ∧
      st.togglePause.2.togglePause.2.status = .Playing) ∧
    (∀ st : GameStateS, st.status ≠ .Playing → st.status ≠ .Paused →
      st.togglePause = (false, st)) ∧
    (∀ st : GameStateS,
      st.endGame.status = .GameOver ∧ st.endGame.timers = [] ∧
      ∀ id h, st.endGame.fireTimeout id h = st.endGame) := by
  refine ⟨?_, ?_, ?_⟩
  · intro st h
    simp [GameStateS.togglePause, GameStateS.pauseGame, GameStateS.resumeGame,
      GameStateS.setStatus, h]
  · intro st h1 h2
    simp [GameStateS.togglePause, h1, h2]
  · intro st
    refine ⟨?_, ?_, ?_⟩
    · simp [GameStateS.endGame, GameStateS.clearAllTimers, GameStateS.setStatus]
      split <;> rfl
    · simp [GameStateS.endGame, GameStateS.clearAllTimers]
    · intro id h
      simp [GameStateS.fireTimeout, GameStateS.endGame, GameStateS.clearAllTimers]

/-- Witness for gameState_togglePause_endGame_spec: a game started from
the initial state, paused and unpaused, and a state that armed the
scared timer, was ended, and then sees its old timeout expire. -/
theorem gameState_togglePause_endGame_spec_witness :
    ((GameStateS.init.startGame).togglePause.1 = true ∧
     (GameStateS.init.startGame).togglePause.2.status = .Paused ∧
     (GameStateS.init.startGame).togglePause.2.togglePause.1 = false ∧
     (GameStateS.init.startGame).togglePause.2.togglePause.2.status = .Playing) ∧
    (GameStateS.init.togglePause = (false, GameStateS.init)) ∧
    ((GameStateS.init.setGhostsScared).endGame.fireTimeout SCARED_TIMER 0
      = (GameStateS.init.setGhostsScared).endGame) := by
  refine ⟨gameState_togglePause_endGame_spec.1 _ ?_,
    gameState_togglePause_endGame_spec.2.1 _ ?_ ?_,
    (gameState_togglePause_endGame_spec.2.2 _).2.2 _ _⟩
  · simp [GameStateS.init, GameStateS.startGame, GameStateS.setStatus]
  · simp [GameStateS.init]
  · simp [GameStateS.init]

/-- Witness for wall_collision_resolution_spec: a 10 by 10 wall at the
origin and an entity of radius 2 at (9, 5), which overlap. -/
theorem wall_collision_resolution_spec_witness :
    (getCollisionInfo (⟨9, 5, 2⟩ : CircularEntity).toRect
        (⟨0, 0, 10, 10⟩ : Wall).toRect).collided = true ∧
    (((Wall.handleCollision ⟨0, 0, 10, 10⟩ ⟨9, 5, 2⟩).x ≠ (⟨9, 5, 2⟩ : CircularEntity).x ∧
      (Wall.handleCollision ⟨0, 0, 10, 10⟩ ⟨9, 5, 2⟩).y = (⟨9, 5, 2⟩ : CircularEntity).y) ∨
     ((Wall.handleCollision ⟨0, 0, 10, 10⟩ ⟨9, 5, 2⟩).x = (⟨9, 5, 2⟩ : CircularEntity).x ∧
      (Wall.handleCollision ⟨0, 0, 10, 10⟩ ⟨9, 5, 2⟩).y ≠ (⟨9, 5, 2⟩ : CircularEntity).y)) ∧
    Wall.handleCollision ⟨0, 0, 10, 10⟩ (Wall.handleCollision ⟨0, 0, 10, 10⟩ ⟨9, 5, 2⟩)
      = Wall.handleCollision ⟨0, 0, 10, 10⟩ ⟨9, 5, 2⟩ := by
  have hcol : (getCollisionInfo (⟨9, 5, 2⟩ : CircularEntity).toRect
      (⟨0, 0, 10, 10⟩ : Wall).toRect).collided = true := by
    norm_num [getCollisionInfo, CircularEntity.toRect, Wall.toRect, abs]
  exact ⟨hcol, (wall_collision_resolution_spec ⟨0, 0, 10, 10⟩ ⟨9, 5, 2⟩).2.1 hcol,
    (wall_collision_resolution_spec ⟨0, 0, 10, 10⟩ ⟨9, 5, 2⟩).2.2.2⟩


/-! ## Level graph: Node, LevelLoader and Level
(src Node, src/Pacman/src/game/Level/LevelEntities.ts)

The source keys its graph Map by the string "x y" of the integer grid
coordinates and the Node objects hold references to their neighbours.
Since the keys are in bijection with the nodes, nodes are identified by
their coordinate pair: the graph is an association list from the pair to
the node record, Map.get and Map.set keep their JS semantics (set
overwrites an existing key in place, otherwise appends), and a neighbour
reference is stored as the key of the referenced node.  Coordinates are
integers so that the out-of-bounds probes of connectNodes (x-1 or y-1 at
the border) miss the map exactly as the string "-1" keys do in JS. -/

/-- Graph key: the integer coordinate pair. -/
abbrev Key := ℤ × ℤ

/-- Node for pathfinding (src Node): passability flag, grid coordinates,
connected nodes.  The transient prev pointer lives in the search state of
the path finder, not in the node. -/
structure GNode where
  isPassable : Bool
  x : ℤ
  y : ℤ
  neighbours : List Key
deriving DecidableEq, Repr

/-- Graph as built by LevelLoader: Map from coordinate key to node. -/
abbrev Graph := List (Key × GNode)

/-- Map.get on the graph. -/
def mapGet (g : Graph) (k : Key) : Option GNode :=
  (g.find? (fun p => p.1 = k)).map (fun p => p.2)

/-- Map.set on the graph: overwrite an existing key, else append. -/
def mapSet (g : Graph) (k : Key) (v : GNode) : Graph :=
  if g.any (fun p => p.1 = k) then
    g.map (fun p => if p.1 = k then (k, v) else p)
  else g ++ [(k, v)]

/-- Ghost kinds placed by the level loader: G is a chaser, A an ambusher,
R a random ghost (a chaser with zero chase radius). -/
inductive GhostKind where
  | chaser
  | ambusher
  | random
deriving DecidableEq, Repr

/-- Ghost entity as created by GhostFactory: kind, centre position and
size derived from the tile size; the chase radius of its behavior. -/
structure GhostEnt where
  kind : GhostKind
  x : ℚ
  y : ℚ
  size : ℚ
  chaseRadius : ℚ
deriving DecidableEq, Repr

/-- Pellet kinds: P is a power pellet, H a path pellet. -/
inductive PelletKind where
  | power
  | path
deriving DecidableEq, Repr

/-- Pellet entity: kind plus the circular body. -/
structure PelletEnt where
  kind : PelletKind
  body : CircularEntity
deriving DecidableEq, Repr

/-- Mutable state accumulated by createGraphAndEntities: the graph under
construction, the LevelEntities collections, and the pacman entity the
start tile repositions. -/
structure BuildState where
  graph : Graph
  walls : List Wall
  dots : List CircularEntity
  ghosts : List GhostEnt
  pellets : List PelletEnt
  startNode : Option GNode
  pacman : CircularEntity
deriving Repr

/-- LevelLoader.processTileCharacter for one tile: creates the entity the
character denotes (an unrecognized character only logs a warning). -/
def processTileCharacter (tileSize : ℚ) (c : Char) (x y : ℕ) (st : BuildState) :
    BuildState :=
  let posX : ℚ := x * tileSize + tileSize / 2
  let posY : ℚ := y * tileSize + tileSize / 2
  let wallEnt : Wall := { x := x * tileSize, y := y * tileSize, width := tileSize, height := tileSize }
  let ghostEnt (kind : GhostKind) (chaseRadius : ℚ) : GhostEnt :=
    { kind := kind, x := posX, y := posY, size := tileSize / 2 * (1/2), chaseRadius := chaseRadius }
  let pelletEnt (kind : PelletKind) : PelletEnt :=
    { kind := kind, body := { x := posX, y := posY, radius := tileSize / 2 * (2/5) } }
  if c = 'S' then
    { st with pacman := { x := posX, y := posY, radius := tileSize / 2 * (4/5) } }
  else if c = '.' then
    { st with dots := st.dots ++ [{ x := posX, y := posY, radius := tileSize / 2 * (3/20) }] }
  else if c = '#' then
    { st with walls := st.walls ++ [wallEnt] }
  else if c = 'G' then
    { st with ghosts := st.ghosts ++ [ghostEnt .chaser 5] }
  else if c = 'A' then
    { st with ghosts := st.ghosts ++ [ghostEnt .ambusher 8] }
  else if c = 'R' then
    { st with ghosts := st.ghosts ++ [ghostEnt .random 0] }
  else if c = 'H' then
    { st with pellets := st.pellets ++ [pelletEnt .path] }
  else if c = 'P' then
    { st with pellets := st.pellets ++ [pelletEnt .power] }
  else st

/-- One step of the nested tile loop of createGraphAndEntities: creates
the node (passable unless a wall), stores it under its key, processes the
tile character, and records the node as start node on an S tile. -/
def buildCell (tileSize : ℚ) (st : BuildState) (cell : ℕ × ℕ × Char) : BuildState :=
  let i := cell.1
  let j := cell.2.1
  let c := cell.2.2
  let passable := c ≠ '#'
  let node : GNode := { isPassable := passable, x := j, y := i, neighbours := [] }
  let st := { st with graph := mapSet st.graph (j, i) node }
  let st := processTileCharacter tileSize c j i st
  if c = 'S' then { st with startNode := some node } else st

/-- Cells of the grid in the visit order of the two nested loops of
createGraphAndEntities: row index i outer, column index j inner. -/
def gridCells (rows : List (List Char)) : List (ℕ × ℕ × Char) :=
  (rows.enum.map (fun p => p.2.enum.map (fun q => (p.1, q.1, q.2)))).flatten

/-- LevelLoader.createGraphAndEntities. -/
def createGraphAndEntities (tileSize : ℚ) (rows : List (List Char))
    (pacman : CircularEntity) : BuildState :=
  (gridCells rows).foldl (buildCell tileSize)
    { graph := [], walls := [], dots := [], ghosts := [], pellets := []
      startNode := none, pacman := pacman }

/-- One step of connectNodes for the cell at row i, column j: pushes the
keys of the existing neighbours in the order above, left, right, below. -/
def connectCell (g : Graph) (cell : ℕ × ℕ × Char) : Graph :=
  let i : ℤ := cell.1
  let j : ℤ := cell.2.1
  match mapGet g (j, i) with
  | none => g
  | some node =>
      let neighbourKeys : List Key := [(j, i - 1), (j - 1, i), (j + 1, i), (j, i + 1)]
      let present := neighbourKeys.filter (fun k => (mapGet g k).isSome)
      mapSet g (j, i) { node with neighbours := node.neighbours ++ present }

/-- LevelLoader.connectNodes: links every node to its existing
4-neighbours, iterating the grid in the same nested order. -/
def connectNodes (g : Graph) (rows : List (List Char)) : Graph :=
  (gridCells rows).foldl connectCell g

/-- LevelLoader.validateLevelDimensions: rejects irregular row lengths
and grids smaller than 3 by 3.  An empty row list makes the source read
the length of an undefined first row, a TypeError that the buildLevel
catch block wraps into a level-load GameError. -/
def validateLevelDimensions (rows : List (List Char)) : Except GameError Unit :=
  match rows with
  | [] => .error ⟨.LevelLoadError⟩
  | r0 :: _ =>
    if rows.any (fun r => r.length ≠ r0.length) then .error ⟨.LevelLoadError⟩
    else if rows.length < 3 ∨ r0.length < 3 then .error ⟨.LevelLoadError⟩
    else .ok ()

/-- Level built by LevelLoader.buildLevel (src Level class). -/
structure Level where
  levelData : List (List Char)
  graph : Graph
  startNode : GNode
  tileSize : ℚ
  walls : List Wall
  dots : List CircularEntity
  ghosts : List GhostEnt
  pellets : List PelletEnt
deriving Repr

/-- LevelLoader.buildLevel: validates the dimensions, creates graph and
entities, connects the nodes, and fails when no start tile was seen.
The level data string is taken already split into its rows; the tile
size is the ratio the loader constructor computed from the canvas. -/
def buildLevel (tileSize : ℚ) (rows : List (List Char)) (pacman : CircularEntity) :
    Except GameError Level := do
  let _ ← validateLevelDimensions rows
  let st := createGraphAndEntities tileSize rows pacman
  let graph := connectNodes st.graph rows
  match st.startNode with
  | none => .error ⟨.LevelLoadError⟩
  | some s =>
      .ok { levelData := rows, graph := graph, startNode := s,
            tileSize := tileSize, walls := st.walls, dots := st.dots,
            ghosts := st.ghosts, pellets := st.pellets }

/-- Level.getNode: graph lookup by floored coordinates (the callers below
pass integers, so flooring is already done). -/
def Level.getNode (lv : Level) (x y : ℤ) : Option GNode :=
  mapGet lv.graph (x, y)

/-- Loop body of Level.getRandomPoint.  The random draw with index idx is
(draws idx) reduced into the valid range, matching
Math.floor(Math.random() * max); attempts = idx + 1 after the draw; the
attempt cap is checked before the passability test, throwing a
pathfinding GameError on the 100th draw.  The fuel starts at 100 and
therefore never reaches 0 before the cap check fires. -/
def getRandomPointLoop (lv : Level) (draws : ℕ → ℕ × ℕ) (maxX maxY : ℕ) :
    ℕ → ℕ → Except GameError GNode
  | 0, _ => .error ⟨.PathfindingError⟩
  | fuel + 1, idx =>
      let x : ℕ := (draws idx).1 % maxX
      let y : ℕ := (draws idx).2 % maxY
      let point := lv.getNode x y
      let attempts := idx + 1
      if attempts ≥ 100 then .error ⟨.PathfindingError⟩
      else match point with
        | some p => if p.isPassable then .ok p else getRandomPointLoop lv draws maxX maxY fuel (idx + 1)
        | none => getRandomPointLoop lv draws maxX maxY fuel (idx + 1)

/-- Level.getRandomPoint: draws random grid cells until a passable node
is found, capped at 100 attempts, after validating that the level data
has content. -/
def Level.getRandomPoint (lv : Level) (draws : ℕ → ℕ × ℕ) : Except GameError GNode :=
  let rows := lv.levelData
  let maxX := (rows.headD []).length
  let maxY := rows.length
  if maxX = 0 ∨ maxY = 0 then .error ⟨.InvalidStateError⟩
  else getRandomPointLoop lv draws maxX maxY 100 0
/-- Every outcome of the random-point loop is a passable node or a
pathfinding error. -/
lemma getRandomPointLoop_shape (lv : Level) (draws : ℕ → ℕ × ℕ) (maxX maxY : ℕ) :
    ∀ fuel idx,
      (∃ p, getRandomPointLoop lv draws maxX maxY fuel idx = .ok p ∧ p.isPassable = true) ∨
      getRandomPointLoop lv draws maxX maxY fuel idx = .error ⟨.PathfindingError⟩ := by
  intro fuel
  induction fuel with
  | zero => intro idx; right; rfl
  | succ n ih =>
      intro idx
      simp only [getRandomPointLoop]
      split
      · right; rfl
      · split
        · rename_i p hp
          split
          · rename_i hpass
            left; exact ⟨p, rfl, hpass⟩
          · exact ih (idx + 1)
        · exact ih (idx + 1)

/-- The random-point loop only reads the draws with index below 100. -/
lemma getRandomPointLoop_congr (lv : Level) (d1 d2 : ℕ → ℕ × ℕ) (maxX maxY : ℕ) :
    ∀ fuel idx, idx + fuel ≤ 100 → (∀ k, k < 100 → d1 k = d2 k) →
      getRandomPointLoop lv d1 maxX maxY fuel idx
        = getRandomPointLoop lv d2 maxX maxY fuel idx := by
  intro fuel
  induction fuel with
  | zero => intro idx _ _; rfl
  | succ n ih =>
      intro idx hle hagree
      have hidx : idx < 100 := by omega
      have hd : d1 idx = d2 idx := hagree idx hidx
      simp only [getRandomPointLoop, hd]
      split
      · rfl
      · split
        · split
          · rfl
          · exact ih (idx + 1) (by omega) hagree
        · exact ih (idx + 1) (by omega) hagree

/-- C9: on any level with non-empty grid data, getRandomPoint either
returns a passable node of the graph or fails with a pathfinding error,
and the outcome only depends on the first 100 random draws (the loop
performs at most 100 draws and cannot run unboundedly, even when no cell
is passable). -/
theorem getRandomPoint_spec (lv : Level) (draws : ℕ → ℕ × ℕ)
    (hx : (lv.levelData.headD []).length ≠ 0) (hy : lv.levelData.length ≠ 0) :
    ((∃ p, lv.getRandomPoint draws = .ok p ∧ p.isPassable = true) ∨
      lv.getRandomPoint draws = .error ⟨.PathfindingError⟩) ∧
    (∀ draws2 : ℕ → ℕ × ℕ, (∀ k, k < 100 → draws k = draws2 k) →
      lv.getRandomPoint draws = lv.getRandomPoint draws2) := by
  constructor
  · unfold Level.getRandomPoint
    simp only [hx, hy, or_self, if_false, false_or]
    exact getRandomPointLoop_shape lv draws _ _ 100 0
  · intro draws2 hagree
    unfold Level.getRandomPoint
    simp only [hx, hy, or_self, if_false, false_or]
    exact getRandomPointLoop_congr lv draws draws2 _ _ 100 0 (by omega) hagree

/-- Concrete single-cell level used to witness getRandomPoint_spec. -/
def witnessLevel : Level :=
  { levelData := [[' ']]
    graph := [((0, 0), { isPassable := true, x := 0, y := 0, neighbours := [] })]
    startNode := { isPassable := true, x := 0, y := 0, neighbours := [] }
    tileSize := 1, walls := [], dots := [], ghosts := [], pellets := [] }

/-- Witness for getRandomPoint_spec: the single-cell level above with the
constant draw stream. -/
theorem getRandomPoint_spec_witness :
    ((∃ p, witnessLevel.getRandomPoint (fun _ => (0, 0)) = .ok p ∧ p.isPassable = true) ∨
      witnessLevel.getRandomPoint (fun _ => (0, 0)) = .error ⟨.PathfindingError⟩) ∧
    (∀ draws2 : ℕ → ℕ × ℕ, (∀ k, k < 100 → (fun _ => ((0 : ℕ), (0 : ℕ))) k = draws2 k) →
      witnessLevel.getRandomPoint (fun _ => (0, 0)) = witnessLevel.getRandomPoint draws2) :=
  getRandomPoint_spec witnessLevel (fun _ => (0, 0))
    (by simp [witnessLevel]) (by simp [witnessLevel])


/-! ## PathFinder (src PathFinder.constructPathBFS)

The search operates on the level graph.  The JS queue array is
represented reversed, so queue.pop (remove last) is taking the head and
queue.unshift (prepend) is appending; pushing the neighbours n1, n2 in
forEach order therefore appends n1 then n2.  The visited Set is a
duplicate-free list (List.insert), and the shared mutable prev field of
the nodes is a map from key to optional key threaded through the loop;
the initial map is a parameter because the source never resets prev
between searches.  The while loop carries an explicit fuel parameter:
running out of fuel yields none; the theorems below exhibit sufficient
fuel.  The inner path-reconstruction while loop walks prev from the
found node: it is given fuel equal to the visited count, which the
pop-order argument (each prev link set in this search points to an
earlier-popped node) makes sufficient whenever the source loop would
terminate; a broken chain yields an inner none, where the source would
crash on a null prev or hang. -/

/-- Neighbour list of the node stored under a key. -/
def neighboursOf (g : Graph) (k : Key) : List Key :=
  match mapGet g k with
  | some nd => nd.neighbours
  | none => []

/-- Passability of the node stored under a key; a key absent from the
graph has no node object in the source and can never be reached. -/
def passableOf (g : Graph) (k : Key) : Bool :=
  match mapGet g k with
  | some nd => nd.isPassable
  | none => false

/-- Assignment n.prev = element of the source, as a map update. -/
def prevUpdate (prev : Key → Option Key) (k e : Key) : Key → Option Key :=
  fun m => if m = k then some e else prev m

/-- Path reconstruction: walks prev from cur, collecting nodes until frm
is reached, then prepends frm; the JS push-then-reverse is mirrored by
consing onto the accumulator. -/
def buildPath (frm : Key) (prev : Key → Option Key) (fuel : ℕ) (cur : Key)
    (acc : List Key) : Option (List Key) :=
  if cur = frm then some (frm :: acc)
  else
    match fuel with
    | 0 => none
    | f + 1 =>
        match prev cur with
        | none => none
        | some p => buildPath frm prev f p (cur :: acc)

/-- While loop of constructPathBFS.  One fuel unit is one iteration
(one pop).  The outer none means the fuel ran out with the queue
non-empty; some r means the loop finished with result r (r itself is
none when the source would crash during path reconstruction). -/
def constructPathBFSLoop (g : Graph) (frm tgt : Key) :
    ℕ → List Key → List Key → (Key → Option Key) → Option (Option (List Key))
  | _, _, [], _ => some (some [])
  | 0, _, _ :: _, _ => none
  | fuel + 1, visited, e :: rest, prev =>
      let visited := visited.insert e
      if e = tgt then
        some (buildPath frm prev visited.length e [])
      else
        let toAdd := (neighboursOf g e).filter
          (fun n => passableOf g n && decide (n ∉ visited))
        let prev2 := toAdd.foldl (fun pr n => prevUpdate pr n e) prev
        constructPathBFSLoop g frm tgt fuel visited (rest ++ toAdd) prev2

/-- PathFinder.constructPathBFS with explicit fuel and initial prev map:
visited starts empty and the queue holds exactly frm. -/
def constructPathBFS (g : Graph) (frm tgt : Key) (prev₀ : Key → Option Key)
    (fuel : ℕ) : Option (List Key) :=
  (constructPathBFSLoop g frm tgt fuel [] [frm] prev₀).join

/-- One-step relation of the search: b is a passable neighbour of a. -/
def stepRel (g : Graph) (a b : Key) : Prop :=
  b ∈ neighboursOf g a ∧ passableOf g b = true

/-- Number of graph keys not yet visited (first termination measure). -/
def unvisitedCount (g : Graph) (visited : List Key) : ℕ :=
  ((g.map Prod.fst).filter (fun k => decide (k ∉ visited))).length

/-- Number of queue entries already visited (second measure). -/
def visitedInQueue (queue visited : List Key) : ℕ :=
  (queue.filter (fun q => decide (q ∈ visited))).length

lemma loop_found (g : Graph) (frm tgt : Key) (fuel : ℕ) (visited : List Key)
    (e : Key) (rest : List Key) (prev : Key → Option Key) (he : e = tgt) :
    constructPathBFSLoop g frm tgt (fuel + 1) visited (e :: rest) prev
      = some (buildPath frm prev (visited.insert e).length e []) := by
  simp only [constructPathBFSLoop, if_pos he]

lemma loop_step (g : Graph) (frm tgt : Key) (fuel : ℕ) (visited : List Key)
    (e : Key) (rest : List Key) (prev : Key → Option Key) (he : e ≠ tgt) :
    constructPathBFSLoop g frm tgt (fuel + 1) visited (e :: rest) prev
      = constructPathBFSLoop g frm tgt fuel (visited.insert e)
          (rest ++ (neighboursOf g e).filter
            (fun n => passableOf g n && decide (n ∉ visited.insert e)))
          (((neighboursOf g e).filter
            (fun n => passableOf g n && decide (n ∉ visited.insert e))).foldl
              (fun pr n => prevUpdate pr n e) prev) := by
  simp only [constructPathBFSLoop, if_neg he]

lemma buildPath_head (frm : Key) (prev : Key → Option Key) :
    ∀ (fuel : ℕ) (cur : Key) (acc l : List Key),
      buildPath frm prev fuel cur acc = some l → l.head? = some frm := by
  intro fuel
  induction fuel with
  | zero =>
      intro cur acc l h
      unfold buildPath at h
      by_cases hc : cur = frm
      · rw [if_pos hc] at h; cases h; rfl
      · rw [if_neg hc] at h; exact absurd h (by simp)
  | succ n ih =>
      intro cur acc l h
      unfold buildPath at h
      by_cases hc : cur = frm
      · rw [if_pos hc] at h; cases h; rfl
      · rw [if_neg hc] at h
        cases hp : prev cur with
        | none => rw [hp] at h; exact absurd h (by simp)
        | some p => rw [hp] at h; exact ih p (cur :: acc) l h

lemma buildPath_last (frm : Key) (prev : Key → Option Key) :
    ∀ (fuel : ℕ) (cur : Key) (acc l : List Key),
      buildPath frm prev fuel cur acc = some l →
      l.getLast? = (cur :: acc).getLast? := by
  intro fuel
  induction fuel with
  | zero =>
      intro cur acc l h
      unfold buildPath at h
      by_cases hc : cur = frm
      · rw [if_pos hc] at h; cases h; rw [hc]
      · rw [if_neg hc] at h; exact absurd h (by simp)
  | succ n ih =>
      intro cur acc l h
      unfold buildPath at h
      by_cases hc : cur = frm
      · rw [if_pos hc] at h; cases h; rw [hc]
      · rw [if_neg hc] at h
        cases hp : prev cur with
        | none => rw [hp] at h; exact absurd h (by simp)
        | some p =>
            rw [hp] at h
            rw [ih p (cur :: acc) l h]
            exact List.getLast?_cons_cons

lemma loop_result_shape (g : Graph) (frm tgt : Key) :
    ∀ (fuel : ℕ) (visited queue : List Key) (prev : Key → Option Key)
      (path : List Key),
      constructPathBFSLoop g frm tgt fuel visited queue prev = some (some path) →
      path = [] ∨ (path.head? = some frm ∧ path.getLast? = some tgt) := by
  intro fuel
  induction fuel with
  | zero =>
      intro visited queue prev path h
      cases queue with
      | nil =>
          left
          have : some (some ([] : List Key)) = some (some path) := h
          cases this; rfl
      | cons e rest => exact absurd h (by simp [constructPathBFSLoop])
  | succ n ih =>
      intro visited queue prev path h
      cases queue with
      | nil =>
          left
          have : some (some ([] : List Key)) = some (some path) := h
          cases this; rfl
      | cons e rest =>
          by_cases he : e = tgt
          · rw [loop_found g frm tgt n visited e rest prev he] at h
            have h1 : buildPath frm prev (visited.insert e).length e [] = some path := by
              injection h
            right
            refine ⟨buildPath_head frm prev _ _ _ _ h1, ?_⟩
            rw [buildPath_last frm prev _ _ _ _ h1]
            simp [he]
          · rw [loop_step g frm tgt n visited e rest prev he] at h
            exact ih _ _ _ _ h

lemma loop_unreachable (g : Graph) (frm tgt : Key)
    (hun : ¬ Relation.ReflTransGen (stepRel g) frm tgt) :
    ∀ (fuel : ℕ) (visited queue : List Key) (prev : Key → Option Key),
      (∀ q ∈ queue, Relation.ReflTransGen (stepRel g) frm q) →
      constructPathBFSLoop g frm tgt fuel visited queue prev = none ∨
      constructPathBFSLoop g frm tgt fuel visited queue prev = some (some []) := by
  intro fuel
  induction fuel with
  | zero =>
      intro visited queue prev hq
      cases queue with
      | nil => right; rfl
      | cons e rest => left; rfl
  | succ n ih =>
      intro visited queue prev hq
      cases queue with
      | nil => right; rfl
      | cons e rest =>
          by_cases he : e = tgt
          · exact absurd (he ▸ hq e (by simp)) hun
          · rw [loop_step g frm tgt n visited e rest prev he]
            apply ih
            intro q hq2
            rcases List.mem_append.mp hq2 with hql | hqr
            · exact hq q (List.mem_cons_of_mem _ hql)
            · have hmem := List.mem_filter.mp hqr
              have hcond := hmem.2
              rw [Bool.and_eq_true] at hcond
              exact (hq e (by simp)).tail ⟨hmem.1, hcond.1⟩

lemma length_filter_mono {α : Type} (l : List α) (p q : α → Bool)
    (himp : ∀ a, q a = true → p a = true) :
    (l.filter q).length ≤ (l.filter p).length := by
  induction l with
  | nil => simp
  | cons a t ih =>
      by_cases hq : q a = true
      · rw [List.filter_cons_of_pos hq, List.filter_cons_of_pos (himp a hq)]
        simpa using ih
      · rw [List.filter_cons_of_neg (by simpa using hq)]
        by_cases hp : p a = true
        · rw [List.filter_cons_of_pos hp]
          exact le_trans ih (Nat.le_succ _)
        · rw [List.filter_cons_of_neg (by simpa using hp)]
          exact ih

lemma length_filter_lt {α : Type} (l : List α) (p q : α → Bool)
    (himp : ∀ a, q a = true → p a = true) (a : α) (ha : a ∈ l)
    (hpa : p a = true) (hqa : q a = false) :
    (l.filter q).length < (l.filter p).length := by
  induction l with
  | nil => cases ha
  | cons b t ih =>
      rcases List.mem_cons.mp ha with rfl | hat
      · rw [List.filter_cons_of_pos hpa, List.filter_cons_of_neg (by simp [hqa])]
        exact Nat.lt_succ_of_le (length_filter_mono t p q himp)
      · by_cases hqb : q b = true
        · rw [List.filter_cons_of_pos hqb, List.filter_cons_of_pos (himp b hqb)]
          simpa using ih hat
        · rw [List.filter_cons_of_neg (by simpa using hqb)]
          by_cases hpb : p b = true
          · rw [List.filter_cons_of_pos hpb]
            exact Nat.lt_succ_of_lt (ih hat)
          · rw [List.filter_cons_of_neg (by simpa using hpb)]
            exact ih hat

/-- Visiting a graph node not yet visited strictly shrinks the unvisited
count. -/
lemma unvisitedCount_lt (g : Graph) (visited : List Key) (e : Key)
    (hin : (mapGet g e).isSome = true) (hnv : e ∉ visited) :
    unvisitedCount g (visited.insert e) < unvisitedCount g visited := by
  have hkey : e ∈ g.map Prod.fst := by
    unfold mapGet at hin
    cases hf : List.find? (fun p => decide (p.1 = e)) g with
    | none => rw [hf] at hin; simp at hin
    | some pr =>
        have hmem := List.mem_of_find?_eq_some hf
        have hpr : pr.1 = e := by
          have := List.find?_some hf
          simpa using this
        exact hpr ▸ List.mem_map_of_mem Prod.fst hmem
  unfold unvisitedCount
  refine length_filter_lt _ _ _ ?_ e hkey (by simp [hnv]) ?_
  · intro a hqa
    simp only [decide_eq_true_eq] at hqa ⊢
    intro hav
    exact hqa (List.mem_insert_iff.mpr (Or.inr hav))
  · simp [List.mem_insert_iff]

/-- Popping an already-visited entry while pushing only unvisited ones
strictly shrinks the count of visited entries in the queue. -/
lemma visitedInQueue_lt (e : Key) (rest toAdd visited : List Key)
    (he : e ∈ visited) (hdisj : ∀ n ∈ toAdd, n ∉ visited) :
    visitedInQueue (rest ++ toAdd) visited < visitedInQueue (e :: rest) visited := by
  unfold visitedInQueue
  rw [List.filter_append, List.length_append, List.filter_cons_of_pos (by simp [he])]
  have hz : (toAdd.filter fun q => decide (q ∈ visited)).length = 0 := by
    rw [List.length_eq_zero]
    rw [List.filter_eq_nil_iff]
    intro n hn
    simp [hdisj n hn]
  rw [hz]
  simp

/-- The search while loop always terminates: from any state whose queue
entries all name graph nodes, some finite fuel completes the loop.
Proved by lexicographic strong induction on the unvisited-node count and
the number of already-visited entries in the queue. -/
lemma loop_terminates_general (g : Graph) (frm tgt : Key) :
    ∀ (U : ℕ) (visited : List Key), unvisitedCount g visited = U →
    ∀ (W : ℕ) (queue : List Key) (prev : Key → Option Key),
      visitedInQueue queue visited = W →
      (∀ q ∈ queue, (mapGet g q).isSome = true) →
      ∃ fuel r, constructPathBFSLoop g frm tgt fuel visited queue prev = some r := by
  intro U
  induction U using Nat.strong_induction_on with
  | _ U ihU =>
    intro visited hU W
    induction W using Nat.strong_induction_on with
    | _ W ihW =>
      intro queue prev hW hq
      cases queue with
      | nil => exact ⟨1, some [], rfl⟩
      | cons e rest =>
        by_cases he : e = tgt
        · exact ⟨1, buildPath frm prev (visited.insert e).length e [],
            loop_found g frm tgt 0 visited e rest prev he⟩
        · have hq2 : ∀ q ∈ rest ++ (neighboursOf g e).filter
              (fun n => passableOf g n && decide (n ∉ visited.insert e)),
              (mapGet g q).isSome = true := by
            intro q hmem
            rcases List.mem_append.mp hmem with h | h
            · exact hq q (List.mem_cons_of_mem _ h)
            · have hcond := (List.mem_filter.mp h).2
              rw [Bool.and_eq_true] at hcond
              have hpass := hcond.1
              unfold passableOf at hpass
              cases hm : mapGet g q with
              | none => rw [hm] at hpass; exact absurd hpass (by simp)
              | some nd => simp [hm]
          have hdisj : ∀ n ∈ (neighboursOf g e).filter
              (fun n => passableOf g n && decide (n ∉ visited.insert e)),
              n ∉ visited.insert e := by
            intro n hn
            have hcond := (List.mem_filter.mp hn).2
            rw [Bool.and_eq_true] at hcond
            simpa using hcond.2
          by_cases hv : e ∈ visited
          · have hvis : visited.insert e = visited := List.insert_of_mem hv
            rw [hvis] at hq2 hdisj
            have hlt : visitedInQueue
                (rest ++ (neighboursOf g e).filter
                  (fun n => passableOf g n && decide (n ∉ visited))) visited < W :=
              hW ▸ visitedInQueue_lt e rest _ visited hv hdisj
            obtain ⟨fuel, r, hr⟩ := ihW _ hlt
              (rest ++ (neighboursOf g e).filter
                (fun n => passableOf g n && decide (n ∉ visited)))
              (((neighboursOf g e).filter
                (fun n => passableOf g n && decide (n ∉ visited))).foldl
                  (fun pr n => prevUpdate pr n e) prev)
              rfl hq2
            refine ⟨fuel + 1, r, ?_⟩
            rw [loop_step g frm tgt fuel visited e rest prev he, hvis]
            exact hr
          · have hlt : unvisitedCount g (visited.insert e) < U :=
              hU ▸ unvisitedCount_lt g visited e (hq e (List.mem_cons_self e rest)) hv
            obtain ⟨fuel, r, hr⟩ := ihU _ hlt (visited.insert e) rfl
              (visitedInQueue
                (rest ++ (neighboursOf g e).filter
                  (fun n => passableOf g n && decide (n ∉ visited.insert e)))
                (visited.insert e))
              (rest ++ (neighboursOf g e).filter
                (fun n => passableOf g n && decide (n ∉ visited.insert e)))
              (((neighboursOf g e).filter
                (fun n => passableOf g n && decide (n ∉ visited.insert e))).foldl
                  (fun pr n => prevUpdate pr n e) prev)
              rfl hq2
            refine ⟨fuel + 1, r, ?_⟩
            rw [loop_step g frm tgt fuel visited e rest prev he]
            exact hr

/-- Five-node graph on which the search loop needs more iterations than
the node count: a triangle with a pendant node D, plus an impassable
isolated target node.  The duplicate queue entries the loop creates for
C and D make it pop six times for five nodes. -/
def cex4Graph : Graph :=
  [ ((0, 0), { isPassable := true, x := 0, y := 0, neighbours := [(1, 0), (2, 0)] }),
    ((1, 0), { isPassable := true, x := 1, y := 0, neighbours := [(0, 0), (2, 0)] }),
    ((2, 0), { isPassable := true, x := 2, y := 0, neighbours := [(0, 0), (1, 0), (3, 0)] }),
    ((3, 0), { isPassable := true, x := 3, y := 0, neighbours := [(2, 0)] }),
    ((9, 9), { isPassable := false, x := 9, y := 9, neighbours := [] }) ]

/-- C4 counterexample: on the five-node graph above, with the target
unreachable, fuel equal to the total node count leaves the search loop
still running (none), while one more iteration completes it; the loop is
therefore not bounded by the total node count. -/
theorem bfs_nodecount_counterexample :
    cex4Graph.length = 5 ∧
    constructPathBFSLoop cex4Graph (0, 0) (9, 9) 5 [] [(0, 0)] (fun _ => none)
      = none ∧
    constructPathBFSLoop cex4Graph (0, 0) (9, 9) 6 [] [(0, 0)] (fun _ => none)
      = some (some []) := by
  refine ⟨rfl, ?_, ?_⟩ <;> rfl

/-- C4 (amended): for every finite graph and every pair of nodes,
including an unreachable target, the search loop of constructPathBFS
terminates: some finite fuel completes it (though, by the
counterexample, node count alone is not always enough fuel). -/
theorem bfs_search_terminates (g : Graph) (frm tgt : Key)
    (prev₀ : Key → Option Key) (h : (mapGet g frm).isSome = true) :
    ∃ fuel r, constructPathBFSLoop g frm tgt fuel [] [frm] prev₀ = some r :=
  loop_terminates_general g frm tgt (unvisitedCount g []) [] rfl
    (visitedInQueue [frm] []) [frm] prev₀ rfl
    (by
      intro q hq
      rw [List.mem_singleton] at hq
      subst hq
      exact h)

/-- Witness for bfs_search_terminates on the concrete five-node graph. -/
theorem bfs_search_terminates_witness :
    ∃ fuel r, constructPathBFSLoop cex4Graph (0, 0) (9, 9) fuel [] [(0, 0)]
      (fun _ => none) = some r :=
  bfs_search_terminates cex4Graph (0, 0) (9, 9) (fun _ => none) (by rfl)

/-- C3: findPath from a node to itself returns the one-element path;
when the target is unreachable through passable nodes the search returns
the empty path (and only ever the empty path); and every non-empty
returned path starts at the source node and ends at the target. -/
theorem findPath_spec (g : Graph) :
    (∀ (n : Key) (prev₀ : Key → Option Key) (fuel : ℕ),
      constructPathBFS g n n prev₀ (fuel + 1) = some [n]) ∧
    (∀ (frm tgt : Key) (prev₀ : Key → Option Key),
      ¬ Relation.ReflTransGen (stepRel g) frm tgt →
      (∀ fuel, constructPathBFS g frm tgt prev₀ fuel = none ∨
               constructPathBFS g frm tgt prev₀ fuel = some []) ∧
      ((mapGet g frm).isSome = true →
        ∃ fuel, constructPathBFS g frm tgt prev₀ fuel = some [])) ∧
    (∀ (frm tgt : Key) (prev₀ : Key → Option Key) (fuel : ℕ) (path : List Key),
      constructPathBFS g frm tgt prev₀ fuel = some path → path ≠ [] →
      path.head? = some frm ∧ path.getLast? = some tgt) := by
  refine ⟨?_, ?_, ?_⟩
  · intro n prev₀ fuel
    rw [constructPathBFS, loop_found g n n fuel [] n [] prev₀ rfl]
    simp [buildPath]
  · intro frm tgt prev₀ hun
    have hqinv : ∀ q ∈ ([frm] : List Key),
        Relation.ReflTransGen (stepRel g) frm q := by
      intro q hq
      rw [List.mem_singleton] at hq
      subst hq
      exact Relation.ReflTransGen.refl
    constructor
    · intro fuel
      rcases loop_unreachable g frm tgt hun fuel [] [frm] prev₀ hqinv with h | h
      · left; rw [constructPathBFS, h]; rfl
      · right; rw [constructPathBFS, h]; rfl
    · intro hfrm
      obtain ⟨fuel, r, hr⟩ := loop_terminates_general g frm tgt
        (unvisitedCount g []) [] rfl (visitedInQueue [frm] []) [frm] prev₀ rfl
        (by
          intro q hq
          rw [List.mem_singleton] at hq
          subst hq
          exact hfrm)
      rcases loop_unreachable g frm tgt hun fuel [] [frm] prev₀ hqinv with h | h
      · rw [h] at hr; cases hr
      · exact ⟨fuel, by rw [constructPathBFS, h]; rfl⟩
  · intro frm tgt prev₀ fuel path h hne
    rw [constructPathBFS] at h
    cases hl : constructPathBFSLoop g frm tgt fuel [] [frm] prev₀ with
    | none => rw [hl] at h; cases h
    | some r =>
        rw [hl] at h
        cases r with
        | none => cases h
        | some p =>
            have hp : p = path := by
              have : some p = some path := h
              injection this
            subst hp
            rcases loop_result_shape g frm tgt fuel [] [frm] prev₀ p hl with h0 | hok
            · exact absurd h0 hne
            · exact hok

/-- Witness for findPath_spec on the concrete five-node graph: the
self-path at A, the unreachable impassable target Z, and the non-empty
path from A to D. -/
theorem findPath_spec_witness :
    constructPathBFS cex4Graph (0, 0) (0, 0) (fun _ => none) 1 = some [(0, 0)] ∧
    (∃ fuel, constructPathBFS cex4Graph (0, 0) (9, 9) (fun _ => none) fuel
      = some []) ∧
    (([((0, 0) : Key), (1, 0), (2, 0), (3, 0)]).head? = some ((0, 0) : Key) ∧
     ([((0, 0) : Key), (1, 0), (2, 0), (3, 0)]).getLast? = some ((3, 0) : Key)) := by
  have hun : ¬ Relation.ReflTransGen (stepRel cex4Graph) (0, 0) (9, 9) := by
    intro h
    rcases Relation.ReflTransGen.cases_tail h with h0 | ⟨c, _, hstep⟩
    · exact absurd h0 (by decide)
    · have := hstep.2
      exact absurd this (by decide)
  refine ⟨(findPath_spec cex4Graph).1 (0, 0) (fun _ => none) 0,
    ((findPath_spec cex4Graph).2.1 (0, 0) (9, 9) (fun _ => none) hun).2 (by rfl),
    (findPath_spec cex4Graph).2.2 (0, 0) (3, 0) (fun _ => none) 5
      [(0, 0), (1, 0), (2, 0), (3, 0)] (by rfl) (by simp)⟩


/-! ## EventMediator (src EventMediator)

The mediator keeps a Map from event kind to an array of listeners.
notify fetches the array for the kind of the event and runs a JS for-of
loop over it: the array iterator reads the live array by increasing
index and stops as soon as the index reaches the current length, so
listeners appended during the dispatch are reached and removals shift
the iteration.  register pushes onto the live array and unregister
splices out the first occurrence of the listener.

A listener is embedded as a numeric identity (object identity of the JS
closure) together with the effect its body has on the mediator itself:
nothing, one register, or one unregister.  Every other behaviour of a
listener body is irrelevant to this claim.  The listener map is a total
function from kind to listener list; a kind the Map lacks is a kind
mapped to the empty list, which notify treats identically (no listener
runs).  The for-of loop carries fuel, one unit per invoked listener;
the theorems exhibit sufficient fuel. -/

/-- Event kind enumeration, from the GameEventType enum of the source. -/
inductive GameEventType where
  | ScoreChanged
  | GhostEaten
  | FruitCollected
  | HighScoreAdded
  | GameStarted
  | GamePaused
  | GameResumed
  | GameOver
  | LevelCompleted
  | PacmanMoved
  | PacmanDied
  | GhostScared
  | GhostRecovered
  | DotCollected
  | PelletCollected
  | GhostCollided
  | PowerModeEnded
  | ShowPath
  | HidePath
  | ShowNameInput
  | ShowHighScores
  | LevelLoaded
deriving DecidableEq, Repr

/-- Effect of a listener body on the mediator when invoked. -/
inductive LAct where
  | noop : LAct
  | registerL : GameEventType → ℕ → LAct → LAct
  | unregisterL : GameEventType → ℕ → LAct
deriving DecidableEq, Repr

/-- Listener: its identity and the effect of its body. -/
abbrev Listener := ℕ × LAct

/-- Listener map of the mediator. -/
abbrev MState := GameEventType → List Listener

/-- Splice of the first occurrence found by indexOf in unregister;
listener object identity is its numeric id. -/
def removeFirstListener : List Listener → ℕ → List Listener
  | [], _ => []
  | l :: t, id => if l.1 = id then t else l :: removeFirstListener t id

/-- EventMediator.register: push onto the listener array of the kind
(creating it first when absent, which the total-function state makes
implicit). -/
def registerListener (s : MState) (k : GameEventType) (l : Listener) : MState :=
  fun k2 => if k2 = k then s k ++ [l] else s k2

/-- EventMediator.unregister: splice out the first matching listener. -/
def unregisterListener (s : MState) (k : GameEventType) (id : ℕ) : MState :=
  fun k2 => if k2 = k then removeFirstListener (s k) id else s k2

/-- Run the effect of an invoked listener body on the mediator. -/
def applyAct (s : MState) : LAct → MState
  | .noop => s
  | .registerL k id act => registerListener s k (id, act)
  | .unregisterL k id => unregisterListener s k id

/-- For-of dispatch loop of EventMediator.notify over the live listener
array of kind k: stops when the index reaches the current length,
otherwise invokes the listener at the index (recording its id) and
applies its effect before moving on. -/
def notifyLoop (k : GameEventType) :
    ℕ → MState → ℕ → List ℕ → Option (MState × List ℕ)
  | fuel, s, i, log =>
    if h : i < (s k).length then
      match fuel with
      | 0 => none
      | fuel + 1 =>
          let l := (s k).get ⟨i, h⟩
          notifyLoop k fuel (applyAct s l.2) (i + 1) (log ++ [l.1])
    else some (s, log)

/-- EventMediator.notify for an event of kind k: returns the final
listener map and the ids of the invoked listeners in invocation order. -/
def notify (s : MState) (k : GameEventType) (fuel : ℕ) :
    Option (MState × List ℕ) :=
  notifyLoop k fuel s 0 []

/-- A listener effect that does not touch the listener list of kind k. -/
def preservesKind (k : GameEventType) : LAct → Bool
  | .noop => true
  | .registerL k2 _ _ => decide (k2 ≠ k)
  | .unregisterL k2 _ => decide (k2 ≠ k)

lemma applyAct_preservesKind (s : MState) (k : GameEventType) (a : LAct)
    (h : preservesKind k a = true) : applyAct s a k = s k := by
  cases a with
  | noop => rfl
  | registerL k2 id act =>
      have : k2 ≠ k := by simpa [preservesKind] using h
      simp [applyAct, registerListener, Ne.symm this]
  | unregisterL k2 id =>
      have : k2 ≠ k := by simpa [preservesKind] using h
      simp [applyAct, unregisterListener, Ne.symm this]

/-- Static dispatch: when no listener of kind k mutates the kind-k list,
the loop invokes exactly the remaining registered listeners in order and
leaves the kind-k list unchanged. -/
lemma notifyLoop_static (k : GameEventType) :
    ∀ (m : ℕ) (s : MState) (i : ℕ) (log : List ℕ),
      m = (s k).length - i →
      (∀ l ∈ s k, preservesKind k l.2 = true) →
      ∃ s2, notifyLoop k m s i log
          = some (s2, log ++ ((s k).drop i).map Prod.fst) ∧ s2 k = s k := by
  intro m
  induction m with
  | zero =>
      intro s i log hm hp
      have hi : ¬ i < (s k).length := by omega
      refine ⟨s, ?_, rfl⟩
      rw [notifyLoop, dif_neg hi, List.drop_eq_nil_of_le (by omega)]
      simp
  | succ n ih =>
      intro s i log hm hp
      have hi : i < (s k).length := by omega
      have hmem : (s k).get ⟨i, hi⟩ ∈ s k := List.get_mem _ _ hi
      have hpres : applyAct s ((s k).get ⟨i, hi⟩).2 k = s k :=
        applyAct_preservesKind s k _ (hp _ hmem)
      obtain ⟨s2, hloop, hsk⟩ := ih (applyAct s ((s k).get ⟨i, hi⟩).2) (i + 1)
        (log ++ [((s k).get ⟨i, hi⟩).1])
        (by rw [hpres]; omega)
        (by rw [hpres]; exact hp)
      rw [hpres] at hloop hsk
      refine ⟨s2, ?_, hsk⟩
      rw [notifyLoop, dif_pos hi]
      show notifyLoop k n (applyAct s ((s k).get ⟨i, hi⟩).2) (i + 1)
          (log ++ [((s k).get ⟨i, hi⟩).1])
        = some (s2, log ++ ((s k).drop i).map Prod.fst)
      rw [hloop]
      have hdrop : (s k).drop i = (s k).get ⟨i, hi⟩ :: (s k).drop (i + 1) :=
        List.drop_eq_getElem_cons hi
      rw [hdrop, List.map_cons]
      simp

/-- C1 (amended): notify invokes listeners synchronously by increasing
position over the live array of the kind of the event.  When no invoked
listener mutates that kind's listener list, this is exactly the
listeners registered at the moment of the call, in registration order,
and the listener list is unchanged afterwards.  (By the accompanying
counterexample, a listener registered for the same kind during the
dispatch is also invoked by the same call, so the unconditional claim
fails.) -/
theorem eventMediator_notify_spec (s : MState) (k : GameEventType)
    (hp : ∀ l ∈ s k, preservesKind k l.2 = true) :
    ∃ s2, notify s k ((s k).length) = some (s2, (s k).map Prod.fst) ∧
      s2 k = s k := by
  obtain ⟨s2, hloop, hsk⟩ := notifyLoop_static k ((s k).length) s 0 [] (by omega) hp
  refine ⟨s2, ?_, hsk⟩
  rw [notify, hloop]
  simp

/-- Concrete initial listener map for the counterexample and witness:
one listener (id 1) for DotCollected whose body registers a second
listener (id 2) for DotCollected. -/
def cexMediator : MState :=
  fun k => if k = .DotCollected then [(1, .registerL .DotCollected 2 .noop)] else []

/-- C1 counterexample: with one registered listener whose body registers
another listener for the same kind, notify invokes both listeners (ids
1 then 2) in the same call, not only the single listener registered at
the moment of the call.  Two fuel units are needed because two
listeners run. -/
theorem eventMediator_reentrant_counterexample :
    (cexMediator .DotCollected).map Prod.fst = [1] ∧
    (notify cexMediator .DotCollected 2).map Prod.snd = some [1, 2] ∧
    ([1, 2] : List ℕ) ≠ [1] := by
  refine ⟨rfl, rfl, by simp⟩

/-- Static listener map for the witness: two effect-free listeners. -/
def pureMediator : MState :=
  fun k => if k = .DotCollected then [(1, .noop), (2, .noop)] else []

/-- Witness for eventMediator_notify_spec: both statically registered
listeners are invoked in registration order. -/
theorem eventMediator_notify_spec_witness :
    ∃ s2, notify pureMediator .DotCollected
        ((pureMediator .DotCollected).length)
      = some (s2, (pureMediator .DotCollected).map Prod.fst) ∧
      s2 .DotCollected = pureMediator .DotCollected :=
  eventMediator_notify_spec pureMediator .DotCollected (by decide)


/-! ## Ghost pathfinding component (src PathfindingComponent, Ghost)

The component state keeps the computed path, the throttling counter and
the current/target nodes.  Nodes are identified by their graph key,
whose components are exactly the node coordinates the source reads for
the axis comparison.  Per tick, update receives the results of the
callbacks the source invokes: the node under the ghost position
(getPoint), the random node supplier (getRandomPoint), the pacman node,
the scared flag, the behavior policy as a function of the current node,
pacman node, scared flag and random node, and the path computation
(PathFinder.constructPathBFS) as a function from source and destination
node to a path.  The value returned alongside the new state is the
direction command passed to the movement controller, none when
moveInDirection is not called this tick. -/

/-- Cardinal movement directions passed to the movement controller. -/
inductive Direction where
  | RIGHT
  | LEFT
  | UP
  | DOWN
deriving DecidableEq, Repr

/-- Mutable state of the PathfindingComponent. -/
structure PathfindingComponent where
  path : List Key
  destination : Option Key
  currentPoint : Option Key
  currentTarget : Option Key
  updateFrequency : ℕ
  lastUpdate : ℕ
deriving DecidableEq, Repr

/-- PathfindingComponent constructor (the updateFrequency parameter
defaults to 30 in the source). -/
def PathfindingComponent.create (updateFrequency : ℕ) : PathfindingComponent :=
  { path := [], destination := none, currentPoint := none, currentTarget := none
    updateFrequency := updateFrequency, lastUpdate := 0 }

/-- Default update frequency of the component constructor. -/
def pathfindingDefaultFrequency : ℕ := 30

/-- The pathfinding component the Ghost constructor builds: it passes 30
explicitly as the update frequency. -/
def ghostPathfindingComponent : PathfindingComponent :=
  PathfindingComponent.create 30

/-- PathfindingComponent.determineMovementDirection: pure axis
comparison preferring a horizontal correction, calling the movement
controller only when a direction was chosen and target and current node
differ. -/
def determineMovementDirection (currentTarget currentPoint : Option Key) :
    Option Direction :=
  match currentTarget, currentPoint with
  | some t, some c =>
      if t = c then none
      else if t.1 > c.1 then some .RIGHT
      else if t.1 < c.1 then some .LEFT
      else if t.2 < c.2 then some .UP
      else if t.2 > c.2 then some .DOWN
      else none
  | _, _ => none

/-- PathfindingComponent.moveToNextNode: second path node becomes the
immediate target when the path has at least two nodes; otherwise the
target falls back to the first path node or the current node and a new
random destination is requested immediately (rnd is the node the
getRandomPoint callback returns this tick). -/
def PathfindingComponent.moveToNextNode (s : PathfindingComponent) (rnd : Key) :
    PathfindingComponent × Option Direction :=
  match s.currentPoint with
  | none => (s, none)
  | some _ =>
      let s :=
        if s.path.length ≥ 2 then
          { s with currentTarget := s.path.get? 1 }
        else
          { s with
            currentTarget :=
              match s.path.head? with
              | some n => some n
              | none => s.currentPoint
            destination := some rnd }
      (s, determineMovementDirection s.currentTarget s.currentPoint)

/-- PathfindingComponent.updatePathfinding: asks the behavior for a
destination, recomputes the path to it and consumes the next node. -/
def PathfindingComponent.updatePathfinding (s : PathfindingComponent)
    (rnd pacmanPoint : Key) (isScared : Bool)
    (behaviorDest : Key → Key → Bool → Key → Key)
    (computePath : Key → Key → List Key) :
    PathfindingComponent × Option Direction :=
  match s.currentPoint with
  | none => (s, none)
  | some cp =>
      let dest := behaviorDest cp pacmanPoint isScared rnd
      let s := { s with destination := some dest }
      let s := { s with path := computePath cp dest }
      s.moveToNextNode rnd

/-- PathfindingComponent.update: refreshes the current node, advances
the throttle counter, and runs the full pathfinding logic only when the
counter reaches the update frequency. -/
def PathfindingComponent.update (s : PathfindingComponent) (cp : Key)
    (rnd pacmanPoint : Key) (isScared : Bool)
    (behaviorDest : Key → Key → Bool → Key → Key)
    (computePath : Key → Key → List Key) :
    PathfindingComponent × Option Direction :=
  let s := { s with currentPoint := some cp, lastUpdate := s.lastUpdate + 1 }
  if s.lastUpdate ≥ s.updateFrequency then
    PathfindingComponent.updatePathfinding { s with lastUpdate := 0 }
      rnd pacmanPoint isScared behaviorDest computePath
  else (s, none)

/-- C6 (amended): the full pathfinding recomputation runs only once
every updateFrequency ticks (the Ghost constructor passes 30, which is
also the constructor default); on a non-recompute tick only the current
node and the throttle counter change and no movement command is issued.
On a recompute tick the ghost takes the second node of the freshly
computed path as immediate target when the path has at least two nodes,
and otherwise falls back to the first path node or the current node and
immediately requests a new random destination; the direction is derived
by pure axis comparison, horizontal preferred when the x coordinates
differ, else vertical. -/
theorem ghost_pathfinding_update_spec :
    ghostPathfindingComponent.updateFrequency = 30 ∧
    pathfindingDefaultFrequency = 30 ∧
    (∀ (s : PathfindingComponent) (cp rnd pacmanPoint : Key) (isScared : Bool)
      (behaviorDest : Key → Key → Bool → Key → Key)
      (computePath : Key → Key → List Key),
      s.lastUpdate + 1 < s.updateFrequency →
      s.update cp rnd pacmanPoint isScared behaviorDest computePath
        = ({ s with currentPoint := some cp, lastUpdate := s.lastUpdate + 1 },
           none)) ∧
    (∀ (s : PathfindingComponent) (cp rnd pacmanPoint : Key) (isScared : Bool)
      (behaviorDest : Key → Key → Bool → Key → Key)
      (computePath : Key → Key → List Key),
      s.lastUpdate + 1 ≥ s.updateFrequency →
      (computePath cp (behaviorDest cp pacmanPoint isScared rnd)).length ≥ 2 →
      s.update cp rnd pacmanPoint isScared behaviorDest computePath
        = ({ s with
              currentPoint := some cp
              lastUpdate := 0
              destination := some (behaviorDest cp pacmanPoint isScared rnd)
              path := computePath cp (behaviorDest cp pacmanPoint isScared rnd)
              currentTarget :=
                (computePath cp (behaviorDest cp pacmanPoint isScared rnd)).get? 1 },
           determineMovementDirection
             ((computePath cp (behaviorDest cp pacmanPoint isScared rnd)).get? 1)
             (some cp))) ∧
    (∀ (s : PathfindingComponent) (cp rnd pacmanPoint : Key) (isScared : Bool)
      (behaviorDest : Key → Key → Bool → Key → Key)
      (computePath : Key → Key → List Key),
      s.lastUpdate + 1 ≥ s.updateFrequency →
      (computePath cp (behaviorDest cp pacmanPoint isScared rnd)).length < 2 →
      s.update cp rnd pacmanPoint isScared behaviorDest computePath
        = ({ s with
              currentPoint := some cp
              lastUpdate := 0
              destination := some rnd
              path := computePath cp (behaviorDest cp pacmanPoint isScared rnd)
              currentTarget :=
                match (computePath cp (behaviorDest cp pacmanPoint isScared rnd)).head? with
                | some n => some n
                | none => some cp },
           determineMovementDirection
             (match (computePath cp (behaviorDest cp pacmanPoint isScared rnd)).head? with
              | some n => some n
              | none => some cp)
             (some cp))) ∧
    (∀ t c : Key, t ≠ c →
      (t.1 ≠ c.1 →
        determineMovementDirection (some t) (some c)
          = some (if t.1 > c.1 then Direction.RIGHT else Direction.LEFT)) ∧
      (t.1 = c.1 → t.2 ≠ c.2 →
        determineMovementDirection (some t) (some c)
          = some (if t.2 < c.2 then Direction.UP else Direction.DOWN))) := by
  refine ⟨rfl, rfl, ?_, ?_, ?_, ?_⟩
  · intro s cp rnd pacmanPoint isScared behaviorDest computePath h
    have hlt : ¬ s.lastUpdate + 1 ≥ s.updateFrequency := by omega
    simp [PathfindingComponent.update, hlt]
  · intro s cp rnd pacmanPoint isScared behaviorDest computePath h hlen
    simp only [PathfindingComponent.update]
    rw [if_pos (by simpa using h)]
    simp [PathfindingComponent.updatePathfinding,
      PathfindingComponent.moveToNextNode, hlen]
  · intro s cp rnd pacmanPoint isScared behaviorDest computePath h hlen
    have hnot : ¬ (computePath cp (behaviorDest cp pacmanPoint isScared rnd)).length ≥ 2 := by
      omega
    simp only [PathfindingComponent.update]
    rw [if_pos (by simpa using h)]
    simp [PathfindingComponent.updatePathfinding,
      PathfindingComponent.moveToNextNode, hnot]
  · intro t c hne
    constructor
    · intro hx
      simp only [determineMovementDirection]
      rw [if_neg hne]
      rcases lt_trichotomy t.1 c.1 with h | h | h
      · rw [if_neg (by omega), if_pos h, if_neg (by omega)]
      · exact absurd h hx
      · rw [if_pos h, if_pos h]
    · intro hx hy
      simp only [determineMovementDirection]
      rw [if_neg hne, if_neg (by omega), if_neg (by omega)]
      rcases lt_trichotomy t.2 c.2 with h | h | h
      · rw [if_pos h, if_pos h]
      · exact absurd h hy
      · rw [if_neg (by omega), if_pos h, if_neg (by omega)]

/-- State used by the C6 counterexample and witness: a stale two-node
path, target not yet consumed, fresh throttle counter. -/
def cexPathfinding : PathfindingComponent :=
  { path := [(0, 0), (1, 0)], destination := some (1, 0)
    currentPoint := some (0, 0), currentTarget := none
    updateFrequency := 30, lastUpdate := 0 }

/-- C6 counterexample: on a tick where the throttle counter has not
reached the update frequency, the component issues no movement command
and does not consume the second path node, although the stored path has
two nodes and its second node lies strictly to the right (the claim
demands a RIGHT command on every tick). -/
theorem pathfinding_everytick_counterexample :
    cexPathfinding.path.length ≥ 2 ∧
    cexPathfinding.path.get? 1 = some (1, 0) ∧
    determineMovementDirection (cexPathfinding.path.get? 1)
      cexPathfinding.currentPoint = some .RIGHT ∧
    (cexPathfinding.update (0, 0) (9, 9) (5, 5) false
      (fun c _ _ _ => c) (fun _ _ => [])).2 = none ∧
    (cexPathfinding.update (0, 0) (9, 9) (5, 5) false
      (fun c _ _ _ => c) (fun _ _ => [])).1.currentTarget = none := by
  refine ⟨by decide, rfl, rfl, rfl, rfl⟩

/-- Witness for ghost_pathfinding_update_spec: a non-recompute tick on
the state above, a recompute tick with a two-node path toward the pacman
node, and the horizontal preference at concrete nodes. -/
theorem ghost_pathfinding_update_spec_witness :
    (cexPathfinding.update (0, 0) (9, 9) (5, 5) false
      (fun c _ _ _ => c) (fun a b => [a, b])).2 = none ∧
    (({ cexPathfinding with lastUpdate := 29 } : PathfindingComponent).update
        (0, 0) (9, 9) (5, 5) false (fun _ p _ _ => p) (fun a b => [a, b])).2
      = determineMovementDirection (some ((5, 5) : Key)) (some ((0, 0) : Key)) ∧
    determineMovementDirection (some ((1, 0) : Key)) (some ((0, 0) : Key))
      = some .RIGHT := by
  refine ⟨?_, ?_, ?_⟩
  · rw [ghost_pathfinding_update_spec.2.2.1 cexPathfinding (0, 0) (9, 9) (5, 5)
      false (fun c _ _ _ => c) (fun a b => [a, b]) (by decide)]
  · rw [ghost_pathfinding_update_spec.2.2.2.1
      ({ cexPathfinding with lastUpdate := 29 }) (0, 0) (9, 9) (5, 5)
      false (fun _ p _ _ => p) (fun a b => [a, b]) (by decide) (by decide)]
    rfl
  · rw [(ghost_pathfinding_update_spec.2.2.2.2.2 ((1, 0) : Key) ((0, 0) : Key)
      (by decide)).1 (by decide)]
    decide

end Pacman
namespace Pacman

/-! ## Characterization of the built level graph

The lemmas below describe the graph createGraphAndEntities and
connectNodes produce: one entry per grid cell keyed by its coordinates,
in visit order, with the neighbour lists filled in the order above,
left, right, below restricted to keys present in the graph. -/

/-- Key of a grid cell (column, row), as stored by graph.set. -/
def cellKey (c : ℕ × ℕ × Char) : Key := ((c.2.1 : ℤ), (c.1 : ℤ))

/-- Node created for a grid cell before neighbour linking. -/
def rawNode (c : ℕ × ℕ × Char) : GNode :=
  { isPassable := c.2.2 ≠ '#', x := c.2.1, y := c.1, neighbours := [] }

lemma processTileCharacter_graph (t : ℚ) (c : Char) (x y : ℕ) (st : BuildState) :
    (processTileCharacter t c x y st).graph = st.graph := by
  unfold processTileCharacter
  split_ifs <;> rfl

lemma processTileCharacter_startNode (t : ℚ) (c : Char) (x y : ℕ) (st : BuildState) :
    (processTileCharacter t c x y st).startNode = st.startNode := by
  unfold processTileCharacter
  split_ifs <;> rfl

lemma buildCell_graph (t : ℚ) (st : BuildState) (c : ℕ × ℕ × Char) :
    (buildCell t st c).graph = mapSet st.graph (cellKey c) (rawNode c) := by
  simp only [buildCell]
  split <;> simp [processTileCharacter_graph, cellKey, rawNode]

lemma buildCell_startNode (t : ℚ) (st : BuildState) (c : ℕ × ℕ × Char) :
    (buildCell t st c).startNode
      = if c.2.2 = 'S' then some (rawNode c) else st.startNode := by
  simp only [buildCell]
  split <;> simp [processTileCharacter_startNode, rawNode]

lemma mapSet_append_of_not_mem (g : Graph) (k : Key) (v : GNode)
    (h : k ∉ g.map Prod.fst) : mapSet g k v = g ++ [(k, v)] := by
  unfold mapSet
  rw [if_neg]
  simp only [List.any_eq_true, decide_eq_true_eq]
  rintro ⟨p, hp, hpk⟩
  exact h (hpk ▸ List.mem_map_of_mem Prod.fst hp)

/-- The tile fold appends one fresh entry per cell, in visit order. -/
lemma foldl_buildCell_graph (t : ℚ) :
    ∀ (cells : List (ℕ × ℕ × Char)) (st : BuildState),
      (cells.map cellKey).Nodup →
      (∀ c ∈ cells, cellKey c ∉ st.graph.map Prod.fst) →
      (cells.foldl (buildCell t) st).graph
        = st.graph ++ cells.map (fun c => (cellKey c, rawNode c)) := by
  intro cells
  induction cells with
  | nil => intro st _ _; simp
  | cons c cells ih =>
      intro st hnd hfresh
      rw [List.foldl_cons]
      have hg : (buildCell t st c).graph = st.graph ++ [(cellKey c, rawNode c)] := by
        rw [buildCell_graph, mapSet_append_of_not_mem _ _ _ (hfresh c (by simp))]
      have hnd' : cellKey c ∉ cells.map cellKey ∧ (cells.map cellKey).Nodup := by
        rw [List.map_cons, List.nodup_cons] at hnd
        exact hnd
      have hnd2 := hnd'.2
      have hnotin := hnd'.1
      rw [ih (buildCell t st c) hnd2 ?_]
      · rw [hg]
        simp
      · intro c2 hc2
        rw [hg]
        simp only [List.map_append, List.mem_append]
        rintro (h1 | h2)
        · exact hfresh c2 (List.mem_cons_of_mem _ hc2) h1
        · simp only [List.map_cons, List.map_nil, List.mem_cons] at h2
          rcases h2 with h2 | h2
          · exact hnotin (h2 ▸ List.mem_map_of_mem cellKey hc2)
          · cases h2

/-- A start tile anywhere in the remaining cells, or one already seen,
leaves the loader with a start node. -/
lemma foldl_buildCell_startNode (t : ℚ) :
    ∀ (cells : List (ℕ × ℕ × Char)) (st : BuildState),
      ((∃ c ∈ cells, c.2.2 = 'S') ∨ st.startNode.isSome = true) →
      ((cells.foldl (buildCell t) st).startNode).isSome = true := by
  intro cells
  induction cells with
  | nil =>
      intro st h
      rcases h with ⟨c, hc, _⟩ | h
      · cases hc
      · simpa using h
  | cons c cells ih =>
      intro st h
      rw [List.foldl_cons]
      rcases h with ⟨c2, hc2, hS⟩ | h
      · rcases List.mem_cons.mp hc2 with rfl | htail
        · refine ih _ (Or.inr ?_)
          rw [buildCell_startNode, if_pos hS]
          rfl
        · exact ih _ (Or.inl ⟨c2, htail, hS⟩)
      · refine ih _ (Or.inr ?_)
        rw [buildCell_startNode]
        split
        · rfl
        · exact h

end Pacman
namespace Pacman

lemma gridCells_map_key (rows : List (List Char)) :
    (gridCells rows).map cellKey
      = (rows.enum.map (fun p =>
          p.2.enum.map (fun q => ((q.1 : ℤ), (p.1 : ℤ))))).flatten := by
  unfold gridCells
  rw [List.map_flatten, List.map_map]
  congr 1
  apply List.map_congr_left
  intro p _
  simp only [Function.comp_apply]
  rw [List.map_map]
  apply List.map_congr_left
  intro q _
  rfl

lemma cellKeys_nodup (rows : List (List Char)) :
    ((gridCells rows).map cellKey).Nodup := by
  rw [gridCells_map_key, List.nodup_flatten]
  constructor
  · intro l hl
    simp only [List.mem_map] at hl
    obtain ⟨p, _, rfl⟩ := hl
    have hrw : p.2.enum.map (fun q => ((q.1 : ℤ), (p.1 : ℤ)))
        = (p.2.enum.map Prod.fst).map (fun j : ℕ => ((j : ℤ), (p.1 : ℤ))) := by
      rw [List.map_map]
      rfl
    rw [hrw, List.enum_map_fst]
    have hinj : Function.Injective (fun j : ℕ => ((j : ℤ), (p.1 : ℤ))) := by
      intro a b hab
      rw [Prod.mk.injEq] at hab
      exact_mod_cast hab.1
    exact (List.nodup_range _).map hinj
  · rw [List.pairwise_map]
    have hnd : rows.enum.Pairwise (fun p q => p.1 ≠ q.1) := by
      have h := List.nodup_enum_map_fst rows
      rw [List.Nodup, List.pairwise_map] at h
      exact h
    refine hnd.imp ?_
    intro p q hne x hxp hxq
    simp only [List.mem_map] at hxp hxq
    obtain ⟨q1, _, rfl⟩ := hxp
    obtain ⟨q2, _, h2⟩ := hxq
    rw [Prod.mk.injEq] at h2
    apply hne
    exact_mod_cast h2.2.symm

lemma gridCells_length (rows : List (List Char)) :
    (gridCells rows).length = (rows.map List.length).sum := by
  unfold gridCells
  rw [List.length_flatten, List.map_map]
  have h1 : rows.enum.map
      (List.length ∘ fun p => p.2.enum.map (fun q => (p.1, q.1, q.2)))
      = rows.enum.map (fun p => p.2.length) := by
    apply List.map_congr_left
    intro p _
    simp
  rw [h1]
  have h2 : rows.enum.map (fun p : ℕ × List Char => p.2.length)
      = (rows.enum.map Prod.snd).map List.length := by
    rw [List.map_map]
    rfl
  rw [h2, List.enum_map_snd]

lemma sum_lengths_rect (rows : List (List Char)) (cols : ℕ)
    (h : ∀ r ∈ rows, r.length = cols) :
    (rows.map List.length).sum = rows.length * cols := by
  induction rows with
  | nil => simp
  | cons r t ih =>
      simp only [List.map_cons, List.sum_cons, List.length_cons]
      rw [h r (by simp), ih (fun r2 hr2 => h r2 (by simp [hr2]))]
      ring

lemma gridCells_chars (rows : List (List Char)) :
    (gridCells rows).map (fun c => c.2.2) = rows.flatten := by
  unfold gridCells
  rw [List.map_flatten, List.map_map]
  have h1 : rows.enum.map
      ((List.map fun c : ℕ × ℕ × Char => c.2.2)
        ∘ fun p => p.2.enum.map (fun q => (p.1, q.1, q.2)))
      = rows.enum.map Prod.snd := by
    apply List.map_congr_left
    intro p _
    show (p.2.enum.map (fun q => (p.1, q.1, q.2))).map (fun c => c.2.2) = p.2
    rw [List.map_map]
    have hcomp : ((fun c : ℕ × ℕ × Char => c.2.2)
        ∘ fun q : ℕ × Char => (p.1, q.1, q.2)) = Prod.snd := rfl
    rw [hcomp, List.enum_map_snd]
  rw [h1, List.enum_map_snd]

end Pacman
namespace Pacman

lemma mapGet_cons_self (k : Key) (v : GNode) (t : Graph) :
    mapGet ((k, v) :: t) k = some v := by
  simp [mapGet]

lemma mapGet_cons_ne (k k2 : Key) (v : GNode) (t : Graph) (h : k2 ≠ k) :
    mapGet ((k2, v) :: t) k = mapGet t k := by
  simp [mapGet, List.find?_cons, h]

lemma mapGet_append_right (A B : Graph) (k : Key)
    (h : k ∉ A.map Prod.fst) : mapGet (A ++ B) k = mapGet B k := by
  induction A with
  | nil => rfl
  | cons p A ih =>
      simp only [List.map_cons, List.mem_cons] at h
      push_neg at h
      rw [List.cons_append]
      have hne : p.1 ≠ k := fun hEq => h.1 hEq.symm
      rw [show (p :: (A ++ B)) = ((p.1, p.2) :: (A ++ B)) by rfl]
      rw [mapGet_cons_ne k p.1 p.2 (A ++ B) hne]
      exact ih h.2

lemma mapGet_isSome (g : Graph) (k : Key) :
    (mapGet g k).isSome = decide (k ∈ g.map Prod.fst) := by
  induction g with
  | nil => rfl
  | cons p t ih =>
      by_cases h : p.1 = k
      · subst h
        rw [show (p :: t) = ((p.1, p.2) :: t) by rfl, mapGet_cons_self]
        simp
      · rw [show (p :: t) = ((p.1, p.2) :: t) by rfl,
          mapGet_cons_ne k p.1 p.2 t h, ih]
        simp [h, Ne.symm h]

lemma mapGet_some_mem (g : Graph) (k : Key) (v : GNode)
    (h : mapGet g k = some v) : (k, v) ∈ g := by
  unfold mapGet at h
  cases hf : g.find? (fun p => decide (p.1 = k)) with
  | none => rw [hf] at h; cases h
  | some p =>
      rw [hf] at h
      have hp1 : p.1 = k := by simpa using List.find?_some hf
      have hp2 : p.2 = v := by
        simpa using h
      have := List.mem_of_find?_eq_some hf
      rw [← hp1, ← hp2]
      simpa using this

lemma map_keep_of_ne (A : Graph) (k : Key) (v : GNode)
    (hA : k ∉ A.map Prod.fst) :
    A.map (fun p => if p.1 = k then (k, v) else p) = A := by
  induction A with
  | nil => rfl
  | cons p t ih =>
      simp only [List.map_cons, List.mem_cons] at hA
      push_neg at hA
      rw [List.map_cons, if_neg (fun hEq => hA.1 hEq.symm), ih hA.2]

lemma mapSet_replace (A B : Graph) (k : Key) (v w : GNode)
    (hA : k ∉ A.map Prod.fst) (hB : k ∉ B.map Prod.fst) :
    mapSet (A ++ (k, w) :: B) k v = A ++ (k, v) :: B := by
  have hany : ((A ++ (k, w) :: B).any fun p => decide (p.1 = k)) = true := by
    simp only [List.any_eq_true]
    exact ⟨(k, w), by simp⟩
  rw [mapSet, if_pos hany, List.map_append, List.map_cons,
    map_keep_of_ne A k v hA, map_keep_of_ne B k v hB]
  simp

end Pacman
namespace Pacman

/-- Probe keys of connectNodes for a cell key: above, left, right,
below. -/
def neighbourKeys (k : Key) : List Key :=
  [(k.1, k.2 - 1), (k.1 - 1, k.2), (k.1 + 1, k.2), (k.1, k.2 + 1)]

/-- Graph entry of a cell after connectNodes, given the full key list K
of the graph. -/
def connEntry (K : List Key) (c : ℕ × ℕ × Char) : Key × GNode :=
  (cellKey c,
    { rawNode c with
      neighbours := (rawNode c).neighbours
        ++ (neighbourKeys (cellKey c)).filter (fun k2 => decide (k2 ∈ K)) })

lemma connEntry_neighbours (K : List Key) (c : ℕ × ℕ × Char) :
    (connEntry K c).2.neighbours
      = (neighbourKeys (cellKey c)).filter (fun k2 => decide (k2 ∈ K)) := by
  simp [connEntry, rawNode]

lemma map_fst_connEntry (K : List Key) (cells : List (ℕ × ℕ × Char)) :
    (cells.map (connEntry K)).map Prod.fst = cells.map cellKey := by
  rw [List.map_map]
  rfl

lemma map_fst_rawEntry (cells : List (ℕ × ℕ × Char)) :
    (cells.map (fun c => (cellKey c, rawNode c))).map Prod.fst
      = cells.map cellKey := by
  rw [List.map_map]
  rfl

lemma connectCell_eq (g : Graph) (c : ℕ × ℕ × Char) (nd : GNode)
    (hget : mapGet g (cellKey c) = some nd) :
    connectCell g c = mapSet g (cellKey c)
      { nd with neighbours := nd.neighbours
          ++ (neighbourKeys (cellKey c)).filter (fun k2 => (mapGet g k2).isSome) } := by
  simp only [cellKey] at hget
  simp only [connectCell, hget, neighbourKeys, cellKey]

/-- The connect fold rewrites each raw entry, in order, into its
connected form; entries behind the cursor are already connected. -/
lemma foldl_connectCell_gen (K : List Key) :
    ∀ (todo done : List (ℕ × ℕ × Char)),
      ((done ++ todo).map cellKey).Nodup →
      ((done ++ todo).map cellKey) = K →
      todo.foldl connectCell
        (done.map (connEntry K) ++ todo.map (fun c => (cellKey c, rawNode c)))
        = (done ++ todo).map (connEntry K) := by
  intro todo
  induction todo with
  | nil => intro done hnd hK; simp
  | cons c todo ih =>
      intro done hnd hK
      rw [List.foldl_cons]
      have hndsplit : (done.map cellKey ++ cellKey c :: todo.map cellKey).Nodup := by
        simpa using hnd
      rw [List.nodup_append] at hndsplit
      obtain ⟨hndDone, hndCons, hdisj⟩ := hndsplit
      have hcTodo : cellKey c ∉ todo.map cellKey := (List.nodup_cons.mp hndCons).1
      have hcDone : cellKey c ∉ done.map cellKey :=
        fun hmem => hdisj hmem (List.mem_cons_self _ _)
      have hget : mapGet (done.map (connEntry K)
            ++ (c :: todo).map (fun c => (cellKey c, rawNode c))) (cellKey c)
          = some (rawNode c) := by
        rw [List.map_cons,
          mapGet_append_right _ _ _ (by rw [map_fst_connEntry]; exact hcDone),
          mapGet_cons_self]
      rw [connectCell_eq _ c (rawNode c) hget]
      have hkeysg : ((done.map (connEntry K)
            ++ (c :: todo).map (fun c => (cellKey c, rawNode c))).map Prod.fst) = K := by
        rw [← hK, List.map_append, map_fst_connEntry, map_fst_rawEntry]
        simp
      have hfilter : (neighbourKeys (cellKey c)).filter
            (fun k2 => (mapGet (done.map (connEntry K)
              ++ (c :: todo).map (fun c => (cellKey c, rawNode c))) k2).isSome)
          = (neighbourKeys (cellKey c)).filter (fun k2 => decide (k2 ∈ K)) := by
        apply List.filter_congr
        intro k2 _
        rw [mapGet_isSome, hkeysg]
      rw [hfilter]
      have hset : mapSet (done.map (connEntry K)
            ++ (c :: todo).map (fun c => (cellKey c, rawNode c))) (cellKey c)
            (connEntry K c).2
          = done.map (connEntry K) ++ connEntry K c
              :: todo.map (fun c => (cellKey c, rawNode c)) := by
        rw [List.map_cons]
        have := mapSet_replace (done.map (connEntry K))
          (todo.map (fun c => (cellKey c, rawNode c))) (cellKey c)
          (connEntry K c).2 (rawNode c)
          (by rw [map_fst_connEntry]; exact hcDone)
          (by rw [map_fst_rawEntry]; exact hcTodo)
        rw [this]
        rfl
      rw [show ({ rawNode c with neighbours := (rawNode c).neighbours
            ++ (neighbourKeys (cellKey c)).filter (fun k2 => decide (k2 ∈ K)) })
          = (connEntry K c).2 from rfl]
      rw [hset]
      have hih := ih (done ++ [c])
        (by simpa using hnd)
        (by simpa using hK)
      rw [List.map_append, List.map_cons, List.map_nil] at hih
      simpa using hih

end Pacman
namespace Pacman

/-- The graph of a built level, fully characterized: one connected entry
per grid cell, keyed and ordered by the cell visit order. -/
lemma buildLevel_graph_eq (tileSize : ℚ) (rows : List (List Char))
    (pacman : CircularEntity) :
    connectNodes (createGraphAndEntities tileSize rows pacman).graph rows
      = (gridCells rows).map (connEntry ((gridCells rows).map cellKey)) := by
  have h1 : (createGraphAndEntities tileSize rows pacman).graph
      = (gridCells rows).map (fun c => (cellKey c, rawNode c)) := by
    unfold createGraphAndEntities
    rw [foldl_buildCell_graph tileSize (gridCells rows) _ (cellKeys_nodup rows)
      (by intro c _; simp)]
    simp
  unfold connectNodes
  rw [h1]
  have h2 := foldl_connectCell_gen ((gridCells rows).map cellKey)
    (gridCells rows) [] (by simpa using cellKeys_nodup rows) (by simp)
  simpa using h2

/-- Successful buildLevel runs produce exactly the connected graph. -/
lemma buildLevel_ok_graph (tileSize : ℚ) (rows : List (List Char))
    (pacman : CircularEntity) (level : Level)
    (hb : buildLevel tileSize rows pacman = .ok level) :
    level.graph = (gridCells rows).map (connEntry ((gridCells rows).map cellKey)) := by
  unfold buildLevel at hb
  cases hval : validateLevelDimensions rows with
  | error e => rw [hval] at hb; cases hb
  | ok u =>
      rw [hval] at hb
      cases u
      have hb2 : (match (createGraphAndEntities tileSize rows pacman).startNode with
          | none => Except.error (GameError.mk GameErrorType.LevelLoadError)
          | some s => Except.ok (Level.mk rows (connectNodes (createGraphAndEntities tileSize rows pacman).graph rows) s tileSize (createGraphAndEntities tileSize rows pacman).walls (createGraphAndEntities tileSize rows pacman).dots (createGraphAndEntities tileSize rows pacman).ghosts (createGraphAndEntities tileSize rows pacman).pellets))
          = Except.ok level := hb
      cases hstart : (createGraphAndEntities tileSize rows pacman).startNode with
      | none => rw [hstart] at hb2; cases hb2
      | some s =>
          rw [hstart] at hb2
          injection hb2 with h
          rw [← h]
          exact buildLevel_graph_eq tileSize rows pacman

end Pacman
namespace Pacman

lemma buildLevel_eq_of_ok_validate (tileSize : ℚ) (rows : List (List Char))
    (pacman : CircularEntity)
    (hval : validateLevelDimensions rows = .ok ()) :
    buildLevel tileSize rows pacman
      = (match (createGraphAndEntities tileSize rows pacman).startNode with
        | none => Except.error (GameError.mk GameErrorType.LevelLoadError)
        | some s => Except.ok (Level.mk rows (connectNodes (createGraphAndEntities tileSize rows pacman).graph rows) s tileSize (createGraphAndEntities tileSize rows pacman).walls (createGraphAndEntities tileSize rows pacman).dots (createGraphAndEntities tileSize rows pacman).ghosts (createGraphAndEntities tileSize rows pacman).pellets)) := by
  unfold buildLevel
  rw [hval]
  rfl

lemma buildLevel_eq_of_error_validate (tileSize : ℚ) (rows : List (List Char))
    (pacman : CircularEntity) (e : GameError)
    (hval : validateLevelDimensions rows = .error e) :
    buildLevel tileSize rows pacman = .error e := by
  unfold buildLevel
  rw [hval]
  rfl

/-- C2: building any rectangular grid of at least 3 rows and 3 columns
with exactly one S succeeds and the graph holds one node per grid cell
(rows times cols); building any grid with a row whose length differs
from the first row fails with a level-load error and returns no level. -/
theorem buildLevel_spec :
    (∀ (tileSize : ℚ) (rows : List (List Char)) (pacman : CircularEntity)
      (cols : ℕ),
      (∀ r ∈ rows, r.length = cols) →
      3 ≤ rows.length → 3 ≤ cols →
      rows.flatten.count 'S' = 1 →
      ∃ level, buildLevel tileSize rows pacman = .ok level ∧
        level.graph.length = rows.length * cols) ∧
    (∀ (tileSize : ℚ) (rows : List (List Char)) (pacman : CircularEntity),
      (∃ (i : ℕ) (h : i < rows.length),
        (rows.get ⟨i, h⟩).length ≠ (rows.headD []).length) →
      ∃ e, buildLevel tileSize rows pacman = .error e ∧
        e.errorType = GameErrorType.LevelLoadError) := by
  constructor
  · intro tileSize rows pacman cols hrect hrows hcols hS
    cases rows with
    | nil => simp at hrows
    | cons r0 rest =>
        have h1 : ¬ (((r0 :: rest).any fun r => decide (r.length ≠ r0.length)) = true) := by
          simp only [List.any_eq_true, decide_eq_true_eq]
          rintro ⟨r, hr, hne⟩
          exact hne (by rw [hrect r hr, hrect r0 (by simp)])
        have h2 : ¬ ((r0 :: rest).length < 3 ∨ r0.length < 3) := by
          push_neg
          exact ⟨hrows, by rw [hrect r0 (by simp)]; exact hcols⟩
        have hval : validateLevelDimensions (r0 :: rest) = .ok () := by
          simp only [validateLevelDimensions]
          rw [if_neg h1, if_neg h2]
        have hSmem : 'S' ∈ (r0 :: rest).flatten := by
          have : 0 < (r0 :: rest).flatten.count 'S' := by omega
          exact List.count_pos_iff.mp this
        have hSex : ∃ c ∈ gridCells (r0 :: rest), c.2.2 = 'S' := by
          rw [← gridCells_chars] at hSmem
          obtain ⟨c, hc, hceq⟩ := List.mem_map.mp hSmem
          exact ⟨c, hc, hceq⟩
        have hsome : ((createGraphAndEntities tileSize (r0 :: rest) pacman).startNode).isSome = true :=
          foldl_buildCell_startNode tileSize (gridCells (r0 :: rest)) _ (Or.inl hSex)
        obtain ⟨s, hs⟩ := Option.isSome_iff_exists.mp hsome
        refine ⟨Level.mk (r0 :: rest) (connectNodes (createGraphAndEntities tileSize (r0 :: rest) pacman).graph (r0 :: rest)) s tileSize (createGraphAndEntities tileSize (r0 :: rest) pacman).walls (createGraphAndEntities tileSize (r0 :: rest) pacman).dots (createGraphAndEntities tileSize (r0 :: rest) pacman).ghosts (createGraphAndEntities tileSize (r0 :: rest) pacman).pellets, ?_, ?_⟩
        · rw [buildLevel_eq_of_ok_validate tileSize (r0 :: rest) pacman hval, hs]
        · show (connectNodes (createGraphAndEntities tileSize (r0 :: rest) pacman).graph (r0 :: rest)).length = _
          rw [buildLevel_graph_eq, List.length_map, gridCells_length,
            sum_lengths_rect (r0 :: rest) cols hrect]
  · intro tileSize rows pacman hex
    obtain ⟨i, hi, hlen⟩ := hex
    cases rows with
    | nil => simp at hi
    | cons r0 rest =>
        have hany : (((r0 :: rest).any fun r => decide (r.length ≠ r0.length)) = true) := by
          simp only [List.any_eq_true, decide_eq_true_eq]
          exact ⟨(r0 :: rest).get ⟨i, hi⟩, List.get_mem _ _ hi, by simpa using hlen⟩
        have hval : validateLevelDimensions (r0 :: rest)
            = .error (GameError.mk GameErrorType.LevelLoadError) := by
          simp only [validateLevelDimensions]
          rw [if_pos hany]
        exact ⟨GameError.mk GameErrorType.LevelLoadError,
          buildLevel_eq_of_error_validate tileSize (r0 :: rest) pacman _ hval, rfl⟩

end Pacman
namespace Pacman

def rows3 : List (List Char) := [['#', '#', '#'], ['#', 'S', '#'], ['#', '#', '#']]

def rowsBad : List (List Char) := [['#', '#', '#'], ['#', 'S'], ['#', '#', '#']]

theorem buildLevel_spec_witness :
    (∃ level, buildLevel 1 rows3 (CircularEntity.mk 0 0 0) = .ok level ∧
      level.graph.length = rows3.length * 3) ∧
    (∃ e, buildLevel 1 rowsBad (CircularEntity.mk 0 0 0) = .error e ∧
      e.errorType = GameErrorType.LevelLoadError) :=
  ⟨buildLevel_spec.1 1 rows3 (CircularEntity.mk 0 0 0) 3 (by decide) (by decide)
      (by decide) (by decide),
    buildLevel_spec.2 1 rowsBad (CircularEntity.mk 0 0 0)
      ⟨1, (by decide : (1 : ℕ) < rowsBad.length), by decide⟩⟩

end Pacman
namespace Pacman

/-- Utils.distanceBetween: Manhattan distance between two points. -/
def distanceBetween (p1 p2 : ℤ × ℤ) : ℤ :=
  |p1.1 - p2.1| + |p1.2 - p2.2|

/-- Position (x, y) of the node stored under a key; a key absent from
the graph has no node object in the source. -/
def nodePos (g : Graph) (k : Key) : ℤ × ℤ :=
  match mapGet g k with
  | some nd => (nd.x, nd.y)
  | none => (0, 0)

/-- AmbusherBehavior.determineDestination: run to a random point when
scared; when within the chase radius of pacman, take the first passable
neighbour of pacman's node, falling back to pacman's node itself;
otherwise move to a random point.  The supplier getRandomPoint is
modelled by passing the point it would return. -/
def ambusherDetermineDestination (g : Graph) (chaseRadius : ℤ)
    (currentPoint pacmanPoint : Key) (isScared : Bool)
    (randomPoint : Key) : Key :=
  if isScared then randomPoint
  else if distanceBetween (nodePos g currentPoint) (nodePos g pacmanPoint)
      ≤ chaseRadius then
    match (neighboursOf g pacmanPoint).filter (passableOf g) with
    | n :: _ => n
    | [] => pacmanPoint
  else randomPoint

/-- C10: with isScared false and the Manhattan distance from the ghost's
node to the player's node at most the chase radius, the ambusher's
destination does not depend on the random-point supplier and equals the
first passable neighbour of the player's node, or the player's node
itself when no neighbour is passable; moreover in every successfully
built level each node's neighbour list is exactly the up, left, right,
down candidate keys filtered to those present in the graph, in that
order, so "first passable neighbour" follows the up, left, right, down
order of connectNodes. -/
theorem ambusher_destination_spec :
    (∀ (g : Graph) (radius : ℤ) (current pacman r1 r2 : Key),
      distanceBetween (nodePos g current) (nodePos g pacman) ≤ radius →
      ambusherDetermineDestination g radius current pacman false r1
          = ambusherDetermineDestination g radius current pacman false r2 ∧
        ambusherDetermineDestination g radius current pacman false r1
          = ((neighboursOf g pacman).filter (passableOf g)).headD pacman) ∧
    (∀ (tileSize : ℚ) (rows : List (List Char)) (pac : CircularEntity)
      (level : Level) (pk : Key) (pnode : GNode),
      buildLevel tileSize rows pac = .ok level →
      mapGet level.graph pk = some pnode →
      pnode.neighbours = (neighbourKeys pk).filter
        (fun k2 => decide (k2 ∈ level.graph.map Prod.fst))) := by
  constructor
  · intro g radius current pacman r1 r2 hdist
    have hval : ∀ r : Key,
        ambusherDetermineDestination g radius current pacman false r
          = ((neighboursOf g pacman).filter (passableOf g)).headD pacman := by
      intro r
      unfold ambusherDetermineDestination
      rw [if_neg (by simp), if_pos hdist]
      cases (neighboursOf g pacman).filter (passableOf g) <;> rfl
    exact ⟨(hval r1).trans (hval r2).symm, hval r1⟩
  · intro tileSize rows pac level pk pnode hb hget
    have hg := buildLevel_ok_graph tileSize rows pac level hb
    have hmem : (pk, pnode) ∈ level.graph := mapGet_some_mem _ _ _ hget
    rw [hg] at hmem
    obtain ⟨c, hc, hceq⟩ := List.mem_map.mp hmem
    have hK : level.graph.map Prod.fst = (gridCells rows).map cellKey := by
      rw [hg]
      exact map_fst_connEntry _ _
    have hval2 : pnode = (connEntry ((gridCells rows).map cellKey) c).2 :=
      (congrArg Prod.snd hceq).symm
    have hkey : pk = cellKey c := (congrArg Prod.fst hceq).symm
    rw [hval2, connEntry_neighbours, hkey, hK]

def pacW : CircularEntity := CircularEntity.mk 0 0 0

def sW : GNode := GNode.mk true 1 1 []

def lvlW : Level :=
  Level.mk rows3 (connectNodes (createGraphAndEntities 1 rows3 pacW).graph rows3) sW 1 (createGraphAndEntities 1 rows3 pacW).walls (createGraphAndEntities 1 rows3 pacW).dots (createGraphAndEntities 1 rows3 pacW).ghosts (createGraphAndEntities 1 rows3 pacW).pellets

def nodeW : GNode :=
  (mapGet lvlW.graph (1, 1)).getD (GNode.mk false 0 0 [])

theorem ambusher_destination_spec_witness :
    (distanceBetween (nodePos cex4Graph (0, 0)) (nodePos cex4Graph (1, 0)) ≤ 8 ∧
      ambusherDetermineDestination cex4Graph 8 (0, 0) (1, 0) false (9, 9)
        = ambusherDetermineDestination cex4Graph 8 (0, 0) (1, 0) false (3, 0) ∧
      ambusherDetermineDestination cex4Graph 8 (0, 0) (1, 0) false (9, 9)
        = ((neighboursOf cex4Graph (1, 0)).filter (passableOf cex4Graph)).headD (1, 0)) ∧
    (buildLevel 1 rows3 pacW = .ok lvlW ∧
      mapGet lvlW.graph (1, 1) = some nodeW ∧
      nodeW.neighbours = (neighbourKeys (1, 1)).filter
        (fun k2 => decide (k2 ∈ lvlW.graph.map Prod.fst))) := by
  have hdist : distanceBetween (nodePos cex4Graph (0, 0)) (nodePos cex4Graph (1, 0)) ≤ 8 := by
    decide
  have hstart : (createGraphAndEntities 1 rows3 pacW).startNode = some sW := by
    decide
  have hb : buildLevel 1 rows3 pacW = .ok lvlW := by
    rw [buildLevel_eq_of_ok_validate 1 rows3 pacW rfl, hstart]
    rfl
  have hget : mapGet lvlW.graph (1, 1) = some nodeW := by
    decide
  exact ⟨⟨hdist,
      (ambusher_destination_spec.1 cex4Graph 8 (0, 0) (1, 0) (9, 9) (3, 0) hdist).1,
      (ambusher_destination_spec.1 cex4Graph 8 (0, 0) (1, 0) (9, 9) (3, 0) hdist).2⟩,
    hb, hget,
    ambusher_destination_spec.2 1 rows3 pacW lvlW (1, 1) nodeW hb hget⟩

end Pacman
